import Mathlib

/-! # Gmu audio output core (`src/audio.c`): embedding and verified properties

The global variables of `audio.c` become the fields of one `State` record and
every C function becomes a Lean function that takes the state and returns the
new state (and the C return value).  Calls into SDL and into the event queue
are recorded, in order, in the state (`sdl`, `event_queue`), so that "the
device was closed", "an event was pushed" and similar are observable.

Threads are not modelled: every function runs from entry to exit without
interference.  The outcome of each mutex call whose result the code inspects
is an input of the function (an environment record), so the lock-failure
paths of the code are part of the model.

C integers: `int` values are `Int`; the `unsigned long` byte counter is a
`Nat` reduced modulo `2 ^ ULONG_BITS` at every update; conversions between
signed and unsigned are written out with `wrapS` and `wrapU`.
-/

namespace Gmu

/-! ## Machine integers -/

/-- Value of the integer `x` converted to an unsigned type of `bits` bits. -/
def wrapU (bits : Nat) (x : Int) : Nat := (x % (2 : Int) ^ bits).toNat

/-- Value of the integer `x` converted to a signed two-complement type of
`bits` bits (the result of wrap-around on overflow). -/
def wrapS (bits : Nat) (x : Int) : Int :=
  (x + (2 : Int) ^ (bits - 1)) % (2 : Int) ^ bits - (2 : Int) ^ (bits - 1)

/-- Compile-time constants and helpers that `audio.c` takes from headers which
are not among the sources (`audio.h`, `fmath.h`, the C ABI). -/
structure Platform where
  /-- Width of `long` and `unsigned long` (32 on the ARM handhelds, 64 on x86-64). -/
  ULONG_BITS : Nat
  /-- Low-water threshold `MIN_BUFFER_FILL` of `audio.h`. -/
  MIN_BUFFER_FILL : Nat
  /-- Whether plain `char` is signed on the target. -/
  char_signed : Bool
  /-- One update `rex[j] + input_signal[i] * fcos(F_PI2*j*i/input_signal_size)`
  stored back into the `int` accumulator: arguments are the accumulator, the
  sample, `j`, `i` and the signal size. -/
  rex_step : Int → Int → Nat → Nat → Nat → Int
  /-- One update `imx[j] + input_signal[i] * fsin(F_PI2*j*i/input_signal_size)`
  stored back into the `int` accumulator. -/
  imx_step : Int → Int → Nat → Nat → Nat → Int

/-! ## Ring buffer -/

/-- Modelled from the spec: `ringbuffer.c` / `ringbuffer.h` are not among the
sources.  The spec describes a fixed-capacity byte FIFO; the queued bytes are
kept oldest first, `fill` is their number. -/
structure RingBuffer where
  size : Nat
  data : List Nat

/-- Modelled from the spec: `init(capacity)` of the missing `ringbuffer.c`,
an empty buffer of the given capacity. -/
def ringbuffer_init (size : Nat) : RingBuffer := { size := size, data := [] }

/-- Modelled from the spec: `clear()` of the missing `ringbuffer.c`. -/
def ringbuffer_clear (rb : RingBuffer) : RingBuffer := { rb with data := [] }

/-- Modelled from the spec: `fill() → n` of the missing `ringbuffer.c`. -/
def ringbuffer_get_fill (rb : RingBuffer) : Nat := rb.data.length

/-- Modelled from the spec: `free() → n` of the missing `ringbuffer.c`,
with fill + free = capacity. -/
def ringbuffer_get_free (rb : RingBuffer) : Nat := rb.size - rb.data.length

/-- Modelled from the spec: `size() → capacity` of the missing `ringbuffer.c`. -/
def ringbuffer_get_size (rb : RingBuffer) : Nat := rb.size

/-- Modelled from the spec: `write(src, n) → bool` of the missing
`ringbuffer.c`; all-or-nothing, rejected if the requested size exceeds the
free space.  `src i` is the byte at offset `i` of the source block. -/
def ringbuffer_write (rb : RingBuffer) (src : Nat → Nat) (n : Nat) : Int × RingBuffer :=
  if n > ringbuffer_get_free rb then (0, rb)
  else (1, { rb with data := rb.data ++ (List.range n).map src })

/-- Modelled from the spec: `read(dst, n) → bool` of the missing
`ringbuffer.c`; all-or-nothing, rejected if the requested size exceeds the
fill.  Returns the flag, the buffer afterwards and the bytes copied out. -/
def ringbuffer_read (rb : RingBuffer) (n : Nat) : Int × RingBuffer × List Nat :=
  if n > ringbuffer_get_fill rb then (0, rb, [])
  else (1, { rb with data := rb.data.drop n }, rb.data.take n)

/-! ## Program state -/

/-- Calls into the SDL audio layer, in the order they are made. -/
inductive SdlCall where
  | PauseAudio (pause_on : Int)
  | OpenAudio (freq : Int) (channels : Int)
  | CloseAudio
  | CondSignal
  | MixAudio (len : Nat) (volume : Nat)
  deriving DecidableEq, Repr

/-- Event kinds pushed by `audio.c`. -/
inductive GmuEvent where
  | GMU_ERROR
  deriving DecidableEq, Repr

/-- Event parameters pushed by `audio.c`. -/
inductive GmuError where
  | GMU_ERROR_CANNOT_OPEN_AUDIO_DEVICE
  deriving DecidableEq, Repr

/-- The file-scope variables of `audio.c`, followed by the record of calls to
SDL and of events pushed to the core event queue. -/
structure State where
  audio_rb : RingBuffer
  buf_read_counter : Nat
  have_samplerate : Int
  have_channels : Int
  device_open : Int
  paused : Int
  done : Int
  buf : Nat → Nat
  volume : Nat
  volume_internal : Nat
  volume_fade_percent : Nat
  spectrum_reg : Int
  amplitudes : List Int
  sdl : List SdlCall
  event_queue : List (GmuEvent × GmuError)

def RINGBUFFER_SIZE : Nat := 131072

def SDL_MIX_MAXVOLUME : Nat := 128

/-- The variables as the C runtime leaves them before `main`: everything zero
except `volume_fade_percent = 100`; the ring buffer is not yet initialised
(capacity 0). -/
def static_init : State :=
  { audio_rb := { size := 0, data := [] }
    buf_read_counter := 0
    have_samplerate := 0
    have_channels := 0
    device_open := 0
    paused := 0
    done := 0
    buf := fun _ => 0
    volume := 0
    volume_internal := 0
    volume_fade_percent := 100
    spectrum_reg := 0
    amplitudes := List.replicate 16 0
    sdl := []
    event_queue := [] }

/-- The function `audio_buffer_init` (mutex and condition creation has no state here). -/
def audio_buffer_init (s : State) : State :=
  { s with
    volume := SDL_MIX_MAXVOLUME
    volume_internal := 15
    paused := 1
    done := 0
    device_open := 0
    have_samplerate := 1
    have_channels := 1
    audio_rb := ringbuffer_init RINGBUFFER_SIZE }

/-! ## Device session -/

/-- The function `audio_set_pause`: returns the pause flag after the call. -/
def audio_set_pause (s : State) (pause_state : Int) : Int × State :=
  if s.device_open ≠ 0 then
    if s.paused ≠ pause_state then
      let s1 := { s with paused := pause_state }
      let s2 := if s1.paused ≠ 0 then { s1 with amplitudes := List.replicate 16 0 } else s1
      let s3 := { s2 with sdl := s2.sdl ++ [SdlCall.PauseAudio s2.paused] }
      (s3.paused, s3)
    else (s.paused, s)
  else (s.paused, s)

/-- The function `audio_set_done`; `p_audio2` tells whether `SDL_mutexP(audio_mutex2)` succeeded. -/
def audio_set_done (p_audio2 : Bool) (s : State) : State :=
  if p_audio2 then { s with done := 1 } else s

/-- The function `audio_get_pause`. -/
def audio_get_pause (s : State) : Int := s.paused

/-- The function `audio_device_close`. -/
def audio_device_close (s : State) : State :=
  if s.device_open ≠ 0 then
    let s1 := (audio_set_pause s 1).2
    { s1 with device_open := 0, sdl := s1.sdl ++ [SdlCall.CloseAudio] }
  else s

/-- Outcomes, for one call of `audio_device_open`, of the calls whose result
the code tests. -/
structure OpenEnv where
  /-- Whether `SDL_mutexP(audio_mutex2) != -1` on entry. -/
  p_audio2 : Bool
  /-- Whether `SDL_OpenAudio(&wanted, &obtained) >= 0`. -/
  sdl_open_ok : Bool
  /-- Whether `SDL_mutexV(audio_mutex2) != -1` before the ring buffer is cleared. -/
  v_audio2 : Bool
  /-- Whether `SDL_mutexP(audio_mutex) != -1` before the ring buffer is cleared. -/
  p_audio : Bool

/-- The function `audio_device_open`: the C return value and the state afterwards. -/
def audio_device_open (e : OpenEnv) (s : State) (samplerate channels : Int) : Int × State :=
  if e.p_audio2 then
    let s0 := { s with buf_read_counter := 0 }
    let (result, s4) :=
      if s0.device_open = 0 ∨ samplerate ≠ s0.have_samplerate ∨ channels ≠ s0.have_channels then
        let s1 := if s0.device_open ≠ 0 then audio_device_close s0 else s0
        let s2 := { s1 with sdl := s1.sdl ++ [SdlCall.OpenAudio samplerate channels] }
        let (result, s3) :=
          if e.sdl_open_ok then
            ((0 : Int), { s2 with device_open := 1, have_samplerate := samplerate,
                                  have_channels := channels })
          else
            ((-3 : Int), { s2 with event_queue := s2.event_queue ++
                [(GmuEvent.GMU_ERROR, GmuError.GMU_ERROR_CANNOT_OPEN_AUDIO_DEVICE)] })
        if e.v_audio2 then
          if e.p_audio then (result, { s3 with audio_rb := ringbuffer_clear s3.audio_rb })
          else (result, s3)
        else (result, s3)
      else ((0 : Int), s0)
    if result = 0 then
      (result, { s4 with done := 0, sdl := s4.sdl ++ [SdlCall.CondSignal] })
    else (result, s4)
  else (-1, s)

/-! ## Producer side and buffer queries -/

/-- The function `audio_fill_buffer`; `p_audio` tells whether
`SDL_mutexP(audio_mutex) == 0`, `data i` is the byte at offset `i` of the
block handed in. -/
def audio_fill_buffer (p_audio : Bool) (s : State) (data : Nat → Nat) (size : Nat) :
    Int × State :=
  if p_audio then
    let r := ringbuffer_write s.audio_rb data size
    (r.1, { s with audio_rb := r.2 })
  else (0, s)

/-- The function `audio_buffer_get_fill`. -/
def audio_buffer_get_fill (p_audio : Bool) (s : State) : Int :=
  if p_audio then (ringbuffer_get_fill s.audio_rb : Int) else 0

/-- The function `audio_buffer_get_size`. -/
def audio_buffer_get_size (p_audio : Bool) (s : State) : Int :=
  if p_audio then (ringbuffer_get_size s.audio_rb : Int) else 0

/-- The function `audio_buffer_clear`. -/
def audio_buffer_clear (p_audio : Bool) (s : State) : State :=
  let s1 := (audio_set_pause s 1).2
  if p_audio then { s1 with audio_rb := ringbuffer_clear s1.audio_rb } else s1

/-! ## Visualization tap -/

/-- Value of a `char` holding the raw byte `b`. -/
def char_value (P : Platform) (b : Nat) : Int :=
  if P.char_signed then wrapS 8 (b : Int) else ((b % 256 : Nat) : Int)

/-- One output bin before scaling: the inner loop over `i` of `calculate_dft`. -/
def dft_bin (step : Int → Int → Nat → Nat → Nat → Int) (input_signal : List Int)
    (input_signal_size : Nat) (j : Nat) : Int :=
  (List.range input_signal_size).foldl
    (fun acc i => step acc (input_signal.getD i 0) j i input_signal_size) 0

/-- The function `calculate_dft` with both output arrays present: the pair
`(rex, imx)`, each of `input_signal_size / 2 + 1` entries, divided by 10000
with C integer division. -/
def calculate_dft (P : Platform) (input_signal : List Int) (input_signal_size : Nat) :
    List Int × List Int :=
  let res_size := input_signal_size / 2 + 1
  ((List.range res_size).map
      (fun j => Int.tdiv (dft_bin P.rex_step input_signal input_signal_size j) 10000),
   (List.range res_size).map
      (fun j => Int.tdiv (dft_bin P.imx_step input_signal input_signal_size j) 10000))

/-- The array `samples_l` after the extraction loop of `fill_audio`: entry `j`
is `(buf[i+1] << 8) + buf[i]` at `i = j * 2 * have_channels`, stored as
`int16_t`.  The loop body runs only when `have_channels > 0`; otherwise the
array keeps whatever the stack held (`garbage`). -/
def samples_l (P : Platform) (garbage : Nat → Int) (s : State) : List Int :=
  (List.range 16).map (fun j =>
    if 0 < s.have_channels then
      let i := j * (2 * s.have_channels).toNat
      wrapS 16 (char_value P (s.buf (i + 1)) * 256 + char_value P (s.buf i))
    else garbage j)

/-- The visualization block of `fill_audio` (runs when `spectrum_reg > 0`):
`amplitudes[i-1] = |imx[i]|` for `i = 1..8`, stored as `int16_t`. -/
def spectrum_tap (P : Platform) (garbage : Nat → Int) (s : State) : State :=
  if 0 < s.spectrum_reg then
    let imx := (calculate_dft P (samples_l P garbage s) 16).2
    { s with amplitudes :=
        (List.range 8).map (fun k =>
          let v := imx.getD (k + 1) 0
          wrapS 16 (if v < 0 then -v else v))
        ++ s.amplitudes.drop 8 }
  else s

/-! ## Pull callback -/

/-- Outcomes, for one call of `fill_audio`, of the mutex calls whose result
the code tests, and the stack garbage seen by the visualization tap. -/
structure FillEnv where
  /-- Whether `SDL_mutexV(audio_mutex) == 0` in the empty-buffer branch. -/
  v_audio : Bool
  /-- Whether `SDL_mutexP(audio_mutex2) != -1` when the done flag is read. -/
  p_audio2_done : Bool
  /-- Whether `SDL_mutexP(audio_mutex2) != -1` in the wait loop. -/
  p_audio2_loop : Bool
  /-- Whether `SDL_mutexP(audio_mutex) != -1` in the wait loop. -/
  p_audio_loop : Bool
  /-- Whether `SDL_mutexP(audio_mutex2) != -1` when the byte counter is advanced. -/
  p_audio2_cnt : Bool
  /-- Content of the uninitialised `samples_l` array. -/
  garbage : Nat → Int

/-- The wait loop of `fill_audio`, run for at most `fuel` polls; `true` when
the loop was left.  No other thread runs in this model, so the state that is
polled does not change. -/
def wait_for_refill (e : FillEnv) (s : State) : Nat → Bool
  | 0 => false
  | fuel + 1 =>
    let loop1 : Bool := if e.p_audio2_loop && (s.paused != 0 || s.done != 0) then false else true
    let loop2 : Bool :=
      if e.p_audio_loop && decide (ringbuffer_get_free s.audio_rb ≤ 65536) then false else loop1
    if loop2 then wait_for_refill e s fuel else true

/-- The empty-buffer branch of `fill_audio` (lines 110 to 136): `none` when the
wait loop is still polling after `fuel` rounds. -/
def underrun_policy (e : FillEnv) (fuel : Nat) (s : State) : Option State :=
  let s1 := { s with sdl := s.sdl ++ [SdlCall.PauseAudio 1] }
  let resume := fun (t : State) =>
    if t.paused = 0 then { t with sdl := t.sdl ++ [SdlCall.PauseAudio 0] } else t
  if e.v_audio then
    let tmp_done : Int := if e.p_audio2_done then s1.done else 0
    if tmp_done ≠ 0 then some (resume (audio_set_pause s1 1).2)
    else if wait_for_refill e s1 fuel then some (resume s1) else none
  else some (resume s1)

/-- The read step of `fill_audio` (lines 139 to 151). -/
def read_block (P : Platform) (e : FillEnv) (s : State) (len : Nat) : State :=
  let r := ringbuffer_read s.audio_rb len
  if r.1 = 0 then
    let avail := ringbuffer_get_fill s.audio_rb
    let s1 := { s with buf := fun _ => 0 }
    let r2 := ringbuffer_read s1.audio_rb avail
    if r2.1 ≠ 0 then
      let s2 := { s1 with audio_rb := r2.2.1,
                          buf := fun i => if i < avail then r2.2.2.getD i 0 else s1.buf i }
      if e.p_audio2_cnt then
        { s2 with buf_read_counter := (s2.buf_read_counter + avail) % 2 ^ P.ULONG_BITS }
      else s2
    else s1
  else
    let s1 := { s with audio_rb := r.2.1,
                       buf := fun i => if i < len then r.2.2.getD i 0 else s.buf i }
    if e.p_audio2_cnt then
      { s1 with buf_read_counter := (s1.buf_read_counter + len) % 2 ^ P.ULONG_BITS }
    else s1

/-- The low-water part of `fill_audio` (lines 102 to 138): the condition
signal below three times `MIN_BUFFER_FILL`, and the empty-buffer branch, which
is reached only below `MIN_BUFFER_FILL`. -/
def low_water (P : Platform) (e : FillEnv) (fuel : Nat) (s : State) : Option State :=
  let s1 :=
    if ringbuffer_get_fill s.audio_rb < P.MIN_BUFFER_FILL * 3 then
      { s with sdl := s.sdl ++ [SdlCall.CondSignal] }
    else s
  if ringbuffer_get_fill s1.audio_rb < P.MIN_BUFFER_FILL then
    if ringbuffer_get_fill s1.audio_rb = 0 then underrun_policy e fuel s1 else some s1
  else some s1

/-- The call of `SDL_MixAudio` that ends `fill_audio`; the scale
`volume * volume_fade_percent / 100` is computed in `unsigned int`. -/
def mix_audio (s : State) (len : Nat) : State :=
  { s with sdl := s.sdl ++
      [SdlCall.MixAudio len (s.volume * s.volume_fade_percent % 2 ^ 32 / 100)] }

/-- The callback `fill_audio` for a request of `len` bytes: the state when it
returns, `none` when the wait loop is still polling after `fuel` rounds. -/
def fill_audio (P : Platform) (e : FillEnv) (fuel : Nat) (s : State) (len : Nat) :
    Option State :=
  (low_water P e fuel s).map (fun s3 =>
    mix_audio (spectrum_tap P e.garbage (read_block P e s3 len)) len)

/-- Whether a callback on state `s` reaches the wait loop: the buffer is
empty (and below `MIN_BUFFER_FILL`), the audio mutex was released, and the
done flag was read as 0. -/
def enters_wait (P : Platform) (e : FillEnv) (s : State) : Bool :=
  decide (ringbuffer_get_fill s.audio_rb < P.MIN_BUFFER_FILL) &&
  decide (ringbuffer_get_fill s.audio_rb = 0) &&
  e.v_audio &&
  decide ((if e.p_audio2_done then s.done else 0) = 0)

/-! ## Playback-time accountant -/

/-- The function `audio_get_playtime`: `none` when the divisor is zero (the
division traps).  The divisor is computed in `int` and converted to
`unsigned long`; the result is converted to `int`. -/
def audio_get_playtime (P : Platform) (p_audio2 : Bool) (s : State) : Option (Int × State) :=
  if p_audio2 then
    let d := wrapU P.ULONG_BITS (wrapS 32 (s.have_samplerate * 2 * s.have_channels))
    if d = 0 then none
    else some (wrapS 32 ((s.buf_read_counter / d * 1000 % 2 ^ P.ULONG_BITS : Nat) : Int), s)
  else some (0, s)

/-- The function `audio_set_sample_counter`: the product is computed in
`long`, stored into the `unsigned long` counter, and the stored value is
returned as `long`. -/
def audio_set_sample_counter (P : Platform) (p_audio2 : Bool) (s : State) (sample : Int) :
    Int × State :=
  if p_audio2 then
    let c := wrapU P.ULONG_BITS (wrapS P.ULONG_BITS (sample * 2 * s.have_channels))
    (wrapS P.ULONG_BITS (c : Int), { s with buf_read_counter := c })
  else (0, s)

/-- The function `audio_increase_sample_counter`. -/
def audio_increase_sample_counter (P : Platform) (p_audio2 : Bool) (s : State)
    (sample_offset : Int) : Int × State :=
  if p_audio2 then
    let c := (s.buf_read_counter +
      wrapU P.ULONG_BITS (wrapS P.ULONG_BITS (sample_offset * 2 * s.have_channels)))
        % 2 ^ P.ULONG_BITS
    (wrapS P.ULONG_BITS (c : Int), { s with buf_read_counter := c })
  else (0, s)

/-- The function `audio_get_sample_count`: `none` when the divisor is zero. -/
def audio_get_sample_count (P : Platform) (p_audio2 : Bool) (s : State) : Option (Int × State) :=
  if p_audio2 then
    let d := wrapU P.ULONG_BITS (wrapS 32 (2 * s.have_channels))
    if d = 0 then none
    else some (wrapS P.ULONG_BITS ((s.buf_read_counter / d : Nat) : Int), s)
  else some (0, s)

/-! ## Sequences of operations -/

/-- The public operations that act on the session, with the environment of
each call. -/
inductive Op where
  | device_open (e : OpenEnv) (samplerate channels : Int)
  | device_close
  | set_pause (pause_state : Int)
  | set_done (p_audio2 : Bool)
  | fill_buffer (p_audio : Bool) (data : Nat → Nat) (size : Nat)
  | buffer_clear (p_audio : Bool)
  | callback (e : FillEnv) (fuel : Nat) (len : Nat)
  | set_sample_counter (p_audio2 : Bool) (sample : Int)
  | increase_sample_counter (p_audio2 : Bool) (sample_offset : Int)

/-- One operation applied to a state; `none` when a callback does not return. -/
def step (P : Platform) (s : State) : Op → Option State
  | Op.device_open e samplerate channels => some (audio_device_open e s samplerate channels).2
  | Op.device_close => some (audio_device_close s)
  | Op.set_pause pause_state => some (audio_set_pause s pause_state).2
  | Op.set_done p => some (audio_set_done p s)
  | Op.fill_buffer p data size => some (audio_fill_buffer p s data size).2
  | Op.buffer_clear p => some (audio_buffer_clear p s)
  | Op.callback e fuel len => fill_audio P e fuel s len
  | Op.set_sample_counter p sample => some (audio_set_sample_counter P p s sample).2
  | Op.increase_sample_counter p off => some (audio_increase_sample_counter P p s off).2

/-- The states visited by a sequence of operations, in order (without the
start state); the sequence stops at a callback that does not return. -/
def trajectory (P : Platform) (s : State) : List Op → List State
  | [] => []
  | op :: ops =>
    match step P s op with
    | some s' => s' :: trajectory P s' ops
    | none => []

/-- Whether the operation is a seek (`audio_set_sample_counter` or
`audio_increase_sample_counter`). -/
def Op.is_seek : Op → Bool
  | Op.set_sample_counter _ _ => true
  | Op.increase_sample_counter _ _ => true
  | _ => false

/-- Whether the operation is `audio_device_open`. -/
def Op.is_device_open : Op → Bool
  | Op.device_open _ _ _ => true
  | _ => false

/-- Whether the byte counter has room for the request of a callback: the
addition to the `unsigned long` counter does not wrap around.  Other
operations need no room. -/
def Op.has_room (P : Platform) (s : State) : Op → Bool
  | Op.callback _ _ len => decide (s.buf_read_counter + len < 2 ^ P.ULONG_BITS)
  | _ => true

/-- Whether every callback of the sequence, at the state it is applied to, has
room in the byte counter. -/
def counter_has_room (P : Platform) (s : State) : List Op → Bool
  | [] => true
  | op :: ops =>
    op.has_room P s &&
    (match step P s op with
      | some s' => counter_has_room P s' ops
      | none => true)

/-! ## Volume, fade and visualization subscribers -/

/-- Modelled from the spec: the constant `AUDIO_MAX_SW_VOLUME` of `audio.h`,
which is not among the sources; the spec lists MAX_SW_VOLUME (16). -/
def AUDIO_MAX_SW_VOLUME : Int := 16

/-- The table `volume_array`. -/
def volume_array : List Int := [0, 1, 2, 3, 4, 5, 6, 7, 8, 16, 24, 32, 48, 64, 96, 128]

/-- Value of `volume_internal` after the two assignments that open
`audio_set_volume`: the `int` result of the first conditional is converted to
`unsigned int`, and the second conditional compares that unsigned value
with 0. -/
def volume_index (vol : Int) : Nat :=
  let v1 := wrapU 32 (if vol < AUDIO_MAX_SW_VOLUME then vol else AUDIO_MAX_SW_VOLUME - 1)
  if v1 > 0 then v1 else 0

/-- The function `audio_set_volume`: `none` when `volume_array` is read
outside its 16 entries. -/
def audio_set_volume (s : State) (vol : Int) : Option State :=
  let s1 := { s with volume_internal := volume_index vol }
  match volume_array[s1.volume_internal]? with
  | some v => some { s1 with volume := wrapU 32 v }
  | none => none

/-- The function `audio_get_volume`: `volume_internal` returned as `int`. -/
def audio_get_volume (s : State) : Int := wrapS 32 (s.volume_internal : Int)

/-- The function `audio_set_fade_volume`. -/
def audio_set_fade_volume (s : State) (percent : Int) : State :=
  if 0 ≤ percent ∧ percent ≤ 100 then { s with volume_fade_percent := wrapU 32 percent }
  else s

/-- The function `audio_fade_out_step`: `step_size` is an `unsigned int`; the
C return value and the state afterwards. -/
def audio_fade_out_step (s : State) (step_size : Nat) : Int × State :=
  let s1 :=
    if 0 < s.volume_fade_percent ∧ s.volume_fade_percent ≥ step_size then
      { s with volume_fade_percent := s.volume_fade_percent - step_size }
    else { s with volume_fade_percent := 0 }
  (if s1.volume_fade_percent = 0 then 1 else 0, s1)

/-- The function `audio_reset_fade_volume`. -/
def audio_reset_fade_volume (s : State) : State := { s with volume_fade_percent := 100 }

/-- The function `audio_fade_out_in_progress`. -/
def audio_fade_out_in_progress (s : State) : Int :=
  if s.volume_fade_percent < 100 ∧ s.volume_fade_percent > 0 then 1 else 0

/-- The function `audio_spectrum_register_for_access` (`int` increment). -/
def audio_spectrum_register_for_access (s : State) : State :=
  { s with spectrum_reg := wrapS 32 (s.spectrum_reg + 1) }

/-- The function `audio_spectrum_unregister`. -/
def audio_spectrum_unregister (s : State) : State :=
  if 0 < s.spectrum_reg then { s with spectrum_reg := s.spectrum_reg - 1 } else s

/-- The function `audio_spectrum_get_current_amplitudes`. -/
def audio_spectrum_get_current_amplitudes (s : State) : List Int := s.amplitudes

/-- The public volume and fade operations. -/
inductive VolumeOp where
  | set_volume (vol : Int)
  | set_fade_volume (percent : Int)
  | fade_out_step (step_size : Nat)
  | reset_fade_volume
  deriving DecidableEq, Repr

/-- One volume or fade operation applied to a state; `none` when
`audio_set_volume` reads outside `volume_array`. -/
def volume_step (s : State) : VolumeOp → Option State
  | VolumeOp.set_volume vol => audio_set_volume s vol
  | VolumeOp.set_fade_volume percent => some (audio_set_fade_volume s percent)
  | VolumeOp.fade_out_step step_size => some (audio_fade_out_step s step_size).2
  | VolumeOp.reset_fade_volume => some (audio_reset_fade_volume s)

/-! ## Sequences of ring buffer operations -/

/-- The ring buffer operations used by `audio.c`: write, full read, the drain
of lines 140 to 142 (a read of exactly the current fill) and clear. -/
inductive RbOp where
  | write (src : Nat → Nat) (n : Nat)
  | read (n : Nat)
  | drain
  | clear

/-- One ring buffer operation; a rejected write or read leaves the buffer as
it was. -/
def rb_step (rb : RingBuffer) : RbOp → RingBuffer
  | RbOp.write src n => (ringbuffer_write rb src n).2
  | RbOp.read n => (ringbuffer_read rb n).2.1
  | RbOp.drain => (ringbuffer_read rb (ringbuffer_get_fill rb)).2.1
  | RbOp.clear => ringbuffer_clear rb

/-- The buffers visited by a sequence of ring buffer operations, in order
(without the start). -/
def rb_trajectory (rb : RingBuffer) : List RbOp → List RingBuffer
  | [] => []
  | op :: ops => rb_step rb op :: rb_trajectory (rb_step rb op) ops

/-! ## Visualization: subscriber calls and the samples of a callback -/

/-- Calls of the two subscriber functions. -/
inductive SpectrumOp where
  | register
  | unregister
  deriving DecidableEq, Repr

/-- One subscriber call applied to a state. -/
def spectrum_step (s : State) : SpectrumOp → State
  | SpectrumOp.register => audio_spectrum_register_for_access s
  | SpectrumOp.unregister => audio_spectrum_unregister s

/-- A sequence of subscriber calls, run in order. -/
def run_spectrum_ops (s : State) : List SpectrumOp → State
  | [] => s
  | op :: ops => run_spectrum_ops (spectrum_step s op) ops

/-- The 16 samples the visualization tap of one callback extracts: the array
`samples_l` read from the scratch buffer as the read step leaves it; `none`
when the callback does not get past the wait loop. -/
def callback_samples (P : Platform) (e : FillEnv) (fuel : Nat) (s : State) (len : Nat) :
    Option (List Int) :=
  (low_water P e fuel s).map (fun u => samples_l P e.garbage (read_block P e u len))

/-- Spec side of the sample extraction, written from the words of the spec:
the signed 16-bit little-endian value of the byte pair `lo`, `hi`. -/
def le_s16 (lo hi : Nat) : Int := wrapS 16 (((hi % 256) * 256 + lo % 256 : Nat) : Int)

/-! ## All state-changing public operations -/

/-- A call of any public operation that can change the state: the session
operations and the callback (`Op`), the volume and fade operations, the
subscriber calls and `audio_buffer_init`. -/
inductive PublicOp where
  | session (op : Op)
  | volume (op : VolumeOp)
  | spectrum (op : SpectrumOp)
  | buffer_init

/-- One public operation applied to a state; `none` when it yields no state
(a callback that does not return, a volume read outside the table). -/
def public_step (P : Platform) (s : State) : PublicOp → Option State
  | PublicOp.session op => step P s op
  | PublicOp.volume op => volume_step s op
  | PublicOp.spectrum op => some (spectrum_step s op)
  | PublicOp.buffer_init => some (audio_buffer_init s)

/-- A sequence of public operations, run in order. -/
def run_public_ops (P : Platform) (s : State) : List PublicOp → Option State
  | [] => some s
  | op :: ops =>
    match public_step P s op with
    | some s' => run_public_ops P s' ops
    | none => none

/-! ## Concrete platforms, environments and states used in examples -/

/-- Example platform: 64-bit `long`, signed `char`, a low-water threshold of
16384 bytes.  No example below registers a visualization subscriber, so the
trigonometric steps are never evaluated; they keep the accumulator. -/
def example_platform : Platform :=
  { ULONG_BITS := 64
    MIN_BUFFER_FILL := 16384
    char_signed := true
    rex_step := fun acc _ _ _ _ => acc
    imx_step := fun acc _ _ _ _ => acc }

/-- Every call succeeds during `audio_device_open`. -/
def open_ok : OpenEnv := { p_audio2 := true, sdl_open_ok := true, v_audio2 := true, p_audio := true }

/-- Every mutex call succeeds during `fill_audio`. -/
def fill_ok : FillEnv :=
  { v_audio := true, p_audio2_done := true, p_audio2_loop := true, p_audio_loop := true,
    p_audio2_cnt := true, garbage := fun _ => 0 }

/-- The state after `audio_buffer_init`. -/
def fresh : State := audio_buffer_init static_init

/-- A session opened at 44100 Hz stereo that has delivered 8 bytes:
init, open(44100, 2), write 8 bytes, one callback of 8 bytes. -/
def played_44100 : Option State :=
  fill_audio example_platform fill_ok 0
    (audio_fill_buffer true (audio_device_open open_ok fresh 44100 2).2 (fun _ => 0) 8).2 8

/-- An open, playing session at 44100 Hz stereo with 8 bytes delivered and an
empty ring buffer, written out field by field. -/
def open_session : State :=
  { fresh with device_open := 1, have_samplerate := 44100, have_channels := 2,
               paused := 0, buf_read_counter := 8 }

/-- The reopen scenario of the spec before the second open: init,
open(44100, 2), write 4096 bytes. -/
def reopen_pre : State :=
  (audio_fill_buffer true (audio_device_open open_ok fresh 44100 2).2 (fun _ => 0) 4096).2

/-- An environment of `audio_device_open` in which the lock is acquired and
the device refuses to open. -/
def open_refused : OpenEnv :=
  { p_audio2 := true, sdl_open_ok := false, v_audio2 := true, p_audio := true }

/-- The open session `open_session` with 8 bytes queued. -/
def queued_8 : State := (audio_fill_buffer true open_session (fun i => i) 8).2

/-- The open session at (44100, 2) with two seconds delivered: 88200 samples
per channel, 352800 bytes. -/
def two_seconds : State := { open_session with buf_read_counter := 352800 }

/-- The freshly initialised state (rate 1, channels 1) after
`audio_set_sample_counter(3000000)`: the byte counter is 6000000. -/
def seek_3000000 : State := (audio_set_sample_counter example_platform true fresh 3000000).2

/-- A sequence without seeks: open(44100, 2), write 8 bytes, one callback of
8 bytes, open(44100, 2) again. -/
def reopen_ops : List Op :=
  [Op.device_open open_ok 44100 2, Op.fill_buffer true (fun _ => 0) 8,
   Op.callback fill_ok 0 8, Op.device_open open_ok 44100 2]

/-- A sequence without seeks and without opens, run on `open_session`: write
8 bytes, a callback of 8 bytes, a callback on the empty buffer, pause, mark
done, clear, close. -/
def play_ops : List Op :=
  [Op.fill_buffer true (fun i => i) 8, Op.callback fill_ok 0 8, Op.set_done true,
   Op.callback fill_ok 0 8, Op.set_pause 1, Op.buffer_clear true, Op.device_close]

/-- The underrun scenario of the spec on a playing session: init,
open(48000, 2), set-pause(0), write 8192 bytes, set-done. -/
def underrun_pre : State :=
  audio_set_done true
    (audio_fill_buffer true
      (audio_set_pause (audio_device_open open_ok fresh 48000 2).2 0).2 (fun _ => 0) 8192).2

/-- Example of a fixed-point sine in ten-thousandths, for an angle in
ten-thousandths of a radian: the parabola 4x(π - x)/π² on each half period. -/
def fx_sin (x : Int) : Int :=
  let y := x % 62832
  if y ≤ 31416 then Int.tdiv (4 * y * (31416 - y)) 98696
  else -(Int.tdiv (4 * (y - 31416) * (62832 - y)) 98696)

/-- Example of a fixed-point cosine: the sine a quarter period ahead. -/
def fx_cos (x : Int) : Int := fx_sin (x + 15708)

/-- Example platform with integer trigonometry: 32-bit `long`, unsigned
`char`, and the two accumulator updates of `calculate_dft` written out in
`int` arithmetic, with `F_PI2` taken as 62832. -/
def fixed_point_platform : Platform :=
  { ULONG_BITS := 32
    MIN_BUFFER_FILL := 16384
    char_signed := false
    rex_step := fun acc x j i n =>
      wrapS 32 (acc + x * fx_cos (Int.tdiv (62832 * (j : Int) * (i : Int)) (n : Int)))
    imx_step := fun acc x j i n =>
      wrapS 32 (acc + x * fx_sin (Int.tdiv (62832 * (j : Int) * (i : Int)) (n : Int))) }

/-- A block of 64 bytes (16 stereo frames) whose left channel is a square
wave: the high byte of the left sample is 2 in frames 0 to 7 and 0 after;
all other bytes are 0. -/
def square_block (i : Nat) : Nat := if i % 4 = 1 ∧ i < 32 then 2 else 0

/-- The visualization scenario of the spec up to the callback: init,
open(44100, 2), register a subscriber, write the 64 bytes of `square_block`. -/
def visual_pre : State :=
  (audio_fill_buffer true
    (audio_spectrum_register_for_access (audio_device_open open_ok fresh 44100 2).2)
    square_block 64).2

/-- An open session with a subscriber and 64 zero bytes queued. -/
def zero_block_pre : State :=
  (audio_fill_buffer true (audio_spectrum_register_for_access open_session) (fun _ => 0) 64).2

/-- The open, playing session `open_session` with published magnitudes. -/
def playing_with_levels : State :=
  { open_session with amplitudes := [3, 1, 4, 1, 5, 9, 2, 6, 0, 0, 0, 0, 0, 0, 0, 0] }

/-- A sequence of ring buffer operations on the buffer of 131072 bytes: a
write of 8 bytes, a write of 131065 bytes (rejected: 131064 are free), a read
of 3, a read of 6 (rejected: 5 are queued), a drain, a write of 4, a clear. -/
def rb_ops_example : List RbOp :=
  [RbOp.write (fun i => i) 8, RbOp.write (fun _ => 0) 131065, RbOp.read 3,
   RbOp.read 6, RbOp.drain, RbOp.write (fun i => i) 4, RbOp.clear]

/-- An environment of `audio_device_open` in which `audio_mutex2` cannot be
acquired. -/
def lock_refused : OpenEnv :=
  { p_audio2 := false, sdl_open_ok := true, v_audio2 := true, p_audio := true }

/-- The open stereo session `open_session` whose scratch buffer starts with
the bytes 0x80, 0x00: the left sample of frame 0 is 128. -/
def low_byte_128 : State :=
  { open_session with buf := fun i => if i = 0 then 128 else 0 }

/-- The playing session with published magnitudes, no subscriber, an empty
ring buffer and the done flag set. -/
def drained_with_levels : State := audio_set_done true playing_with_levels

/-- A sequence of public operations from the freshly initialised state:
fade to 40, open, a step of 15, volume 20, a step of 60, a fade request of
250 (ignored), register, reset, a step of 1. -/
def public_ops_example : List PublicOp :=
  [PublicOp.volume (VolumeOp.set_fade_volume 40),
   PublicOp.session (Op.device_open open_ok 44100 2),
   PublicOp.volume (VolumeOp.fade_out_step 15),
   PublicOp.volume (VolumeOp.set_volume 20),
   PublicOp.volume (VolumeOp.fade_out_step 60),
   PublicOp.volume (VolumeOp.set_fade_volume 250),
   PublicOp.spectrum SpectrumOp.register,
   PublicOp.volume VolumeOp.reset_fade_volume,
   PublicOp.volume (VolumeOp.fade_out_step 1)]

/-- A sequence of subscriber calls: unregister at 0, two registers, three
unregisters, one register. -/
def spectrum_ops_example : List SpectrumOp :=
  [SpectrumOp.unregister, SpectrumOp.register, SpectrumOp.register, SpectrumOp.unregister,
   SpectrumOp.unregister, SpectrumOp.unregister, SpectrumOp.register]

/-- A played and then unsubscribed session: init, open(44100, 2), resume,
register, write the 64 bytes of `square_block`, one callback of 64 bytes (it
publishes magnitudes), unregister, set-done. -/
def unsubscribed_pre : Option State :=
  (fill_audio fixed_point_platform fill_ok 0
    (audio_fill_buffer true
      (audio_spectrum_register_for_access
        (audio_set_pause (audio_device_open open_ok fresh 44100 2).2 0).2)
      square_block 64).2 64).map
    (fun s => audio_set_done true (audio_spectrum_unregister s))

/-- An accepted write adds exactly `n` bytes to the fill. -/
theorem ringbuffer_write_fill (rb : RingBuffer) (src : Nat → Nat) (n : Nat)
    (h : n ≤ ringbuffer_get_free rb) :
    ringbuffer_get_fill (ringbuffer_write rb src n).2 = ringbuffer_get_fill rb + n := by
  have h' : ¬ n > ringbuffer_get_free rb := Nat.not_lt.mpr h
  simp [ringbuffer_write, h', ringbuffer_get_fill]

/-- With the lock acquired, `audio_fill_buffer` of a block that fits adds
exactly `size` bytes to the fill. -/
theorem audio_fill_buffer_fill (s : State) (data : Nat → Nat) (size : Nat)
    (h : size ≤ ringbuffer_get_free s.audio_rb) :
    ringbuffer_get_fill (audio_fill_buffer true s data size).2.audio_rb =
      ringbuffer_get_fill s.audio_rb + size := by
  simp only [audio_fill_buffer, if_true]
  exact ringbuffer_write_fill s.audio_rb data size h

/-! ## Device open: lemmas -/

/-- With the `audio_mutex2` lock acquired and the session already open at the
requested rate and channels, `audio_device_open` takes the reuse branch. -/
theorem audio_device_open_same (e : OpenEnv) (s : State) (hlock : e.p_audio2 = true)
    (hopen : s.device_open ≠ 0) :
    audio_device_open e s s.have_samplerate s.have_channels =
      (0, { s with buf_read_counter := 0, done := 0, sdl := s.sdl ++ [SdlCall.CondSignal] }) := by
  simp [audio_device_open, hlock, hopen]

/-- On the reopen branch with every call successful, `audio_device_open`
closes the old session, opens the device and clears the ring buffer. -/
theorem audio_device_open_mismatch (e : OpenEnv) (s : State) (samplerate channels : Int)
    (hlock : e.p_audio2 = true) (hsdl : e.sdl_open_ok = true) (hv : e.v_audio2 = true)
    (hp : e.p_audio = true) (hopen : s.device_open ≠ 0)
    (hdiff : samplerate ≠ s.have_samplerate ∨ channels ≠ s.have_channels) :
    audio_device_open e s samplerate channels =
      (0, { (audio_device_close { s with buf_read_counter := 0 }) with
              device_open := 1, have_samplerate := samplerate, have_channels := channels,
              audio_rb := ringbuffer_clear s.audio_rb, done := 0,
              sdl := (audio_device_close { s with buf_read_counter := 0 }).sdl ++
                [SdlCall.OpenAudio samplerate channels, SdlCall.CondSignal] }) := by
  have hc : (audio_device_close { s with buf_read_counter := 0 }).audio_rb = s.audio_rb := by
    simp only [audio_device_close, audio_set_pause]
    split_ifs <;> rfl
  simp [audio_device_open, hlock, hsdl, hv, hp, hopen, hdiff, hc]

/-! ## Claims C1 to C4: `audio_device_open` -/

/-- C1 (as stated, refuted): on the session `played_44100`, open at
(44100, 2) with byte counter 8, a second `audio_device_open(44100, 2)` returns
0 on the reuse path (its only SDL call is the condition signal) and leaves the
byte counter at 0, not at 8. -/
theorem C1_counterexample :
    played_44100.map (fun s => (s.device_open, s.have_samplerate, s.have_channels,
        s.buf_read_counter)) = some (1, 44100, 2, 8) ∧
    played_44100.map (fun s => ((audio_device_open open_ok s 44100 2).1,
        (audio_device_open open_ok s 44100 2).2.buf_read_counter,
        (audio_device_open open_ok s 44100 2).2.sdl.drop s.sdl.length)) =
      some (0, 0, [SdlCall.CondSignal]) := by
  constructor <;> rfl

/-- C1 (amended): for every state in which the session is already open with
rate R and channels C, `audio_device_open(R, C)` that acquires the
`audio_mutex2` lock returns 0 and leaves the byte counter equal to 0: the
counter is reset before the code decides between reuse and reopen. -/
theorem C1_open_same_resets_counter (e : OpenEnv) (s : State)
    (hlock : e.p_audio2 = true) (hopen : s.device_open ≠ 0) :
    (audio_device_open e s s.have_samplerate s.have_channels).1 = 0 ∧
    (audio_device_open e s s.have_samplerate s.have_channels).2.buf_read_counter = 0 := by
  rw [audio_device_open_same e s hlock hopen]
  exact ⟨rfl, rfl⟩

/-- Witness for C1 (amended): the open session at (44100, 2) with 8 bytes
delivered. -/
theorem C1_open_same_resets_counter_witness :
    open_session.device_open ≠ 0 ∧ open_session.buf_read_counter = 8 ∧
    (audio_device_open open_ok open_session 44100 2).1 = 0 ∧
    (audio_device_open open_ok open_session 44100 2).2.buf_read_counter = 0 :=
  ⟨by decide, rfl, C1_open_same_resets_counter open_ok open_session rfl (by decide)⟩

/-- C2: for every state in which the session is open with (R, C) and every
(R', C') different from (R, C) for which the device opens successfully (and
the mutex calls of the function succeed), `audio_device_open(R', C')` returns
0 and leaves the session open with rate R' and channels C', ring buffer fill
0 and byte counter 0. -/
theorem C2_open_mismatch (e : OpenEnv) (s : State) (samplerate channels : Int)
    (hlock : e.p_audio2 = true) (hsdl : e.sdl_open_ok = true) (hv : e.v_audio2 = true)
    (hp : e.p_audio = true) (hopen : s.device_open ≠ 0)
    (hdiff : samplerate ≠ s.have_samplerate ∨ channels ≠ s.have_channels) :
    (audio_device_open e s samplerate channels).1 = 0 ∧
    (audio_device_open e s samplerate channels).2.device_open = 1 ∧
    (audio_device_open e s samplerate channels).2.have_samplerate = samplerate ∧
    (audio_device_open e s samplerate channels).2.have_channels = channels ∧
    ringbuffer_get_fill (audio_device_open e s samplerate channels).2.audio_rb = 0 ∧
    (audio_device_open e s samplerate channels).2.buf_read_counter = 0 := by
  rw [audio_device_open_mismatch e s samplerate channels hlock hsdl hv hp hopen hdiff]
  refine ⟨rfl, rfl, rfl, rfl, rfl, ?_⟩
  simp only [audio_device_close, audio_set_pause]
  split_ifs <;> rfl

/-- Witness for C2: the reopen scenario of the spec, open(44100, 2), 4096
bytes written, then open(48000, 2). -/
theorem C2_open_mismatch_witness :
    reopen_pre.device_open = 1 ∧ reopen_pre.have_samplerate = 44100 ∧
    ringbuffer_get_fill reopen_pre.audio_rb = 4096 ∧
    (audio_device_open open_ok reopen_pre 48000 2).1 = 0 ∧
    (audio_device_open open_ok reopen_pre 48000 2).2.device_open = 1 ∧
    (audio_device_open open_ok reopen_pre 48000 2).2.have_samplerate = 48000 ∧
    (audio_device_open open_ok reopen_pre 48000 2).2.have_channels = 2 ∧
    ringbuffer_get_fill (audio_device_open open_ok reopen_pre 48000 2).2.audio_rb = 0 ∧
    (audio_device_open open_ok reopen_pre 48000 2).2.buf_read_counter = 0 :=
  ⟨rfl, rfl, (audio_fill_buffer_fill _ _ 4096 (by decide)).trans rfl,
    C2_open_mismatch open_ok reopen_pre 48000 2 rfl rfl rfl rfl (by decide)
      (Or.inl (by decide))⟩

/-- C3: for every state in which the session is open with rate R and channels
C, `audio_device_open(R, C)` (with the `audio_mutex2` lock acquired) returns 0,
makes no SDL call except the condition signal (so it neither closes nor opens
the device), and leaves the ring buffer (capacity, fill and contents), the
pause flag, the open flag and the rate and channels of the session
unchanged. -/
theorem C3_open_same_noop (e : OpenEnv) (s : State)
    (hlock : e.p_audio2 = true) (hopen : s.device_open ≠ 0) :
    (audio_device_open e s s.have_samplerate s.have_channels).1 = 0 ∧
    (audio_device_open e s s.have_samplerate s.have_channels).2.sdl =
      s.sdl ++ [SdlCall.CondSignal] ∧
    (audio_device_open e s s.have_samplerate s.have_channels).2.audio_rb = s.audio_rb ∧
    (audio_device_open e s s.have_samplerate s.have_channels).2.paused = s.paused ∧
    (audio_device_open e s s.have_samplerate s.have_channels).2.device_open = s.device_open ∧
    (audio_device_open e s s.have_samplerate s.have_channels).2.have_samplerate =
      s.have_samplerate ∧
    (audio_device_open e s s.have_samplerate s.have_channels).2.have_channels =
      s.have_channels := by
  rw [audio_device_open_same e s hlock hopen]
  exact ⟨rfl, rfl, rfl, rfl, rfl, rfl, rfl⟩

/-- Witness for C3: the reopen scenario of the spec, open(44100, 2), 4096
bytes written, then open(44100, 2) again; the 4096 bytes stay queued. -/
theorem C3_open_same_noop_witness :
    reopen_pre.device_open = 1 ∧
    (audio_device_open open_ok reopen_pre 44100 2).1 = 0 ∧
    (audio_device_open open_ok reopen_pre 44100 2).2.sdl =
      reopen_pre.sdl ++ [SdlCall.CondSignal] ∧
    (audio_device_open open_ok reopen_pre 44100 2).2.audio_rb = reopen_pre.audio_rb ∧
    (audio_device_open open_ok reopen_pre 44100 2).2.paused = reopen_pre.paused ∧
    (audio_device_open open_ok reopen_pre 44100 2).2.device_open = reopen_pre.device_open ∧
    (audio_device_open open_ok reopen_pre 44100 2).2.have_samplerate = 44100 ∧
    (audio_device_open open_ok reopen_pre 44100 2).2.have_channels = 2 :=
  ⟨rfl, C3_open_same_noop open_ok reopen_pre rfl (by decide)⟩

/-- C4: `audio_device_open` returns -3 exactly when it attempted to open the
device (lock acquired, and the session closed or the rate or channels differ
from the open session) and `SDL_OpenAudio` failed; in that case exactly one
event (`GMU_ERROR`, `GMU_ERROR_CANNOT_OPEN_AUDIO_DEVICE`) is appended to the
event queue, and in every other case the event queue is unchanged. -/
theorem C4_open_failure_event (e : OpenEnv) (s : State) (samplerate channels : Int) :
    ((audio_device_open e s samplerate channels).1 = -3 ↔
      (e.p_audio2 = true ∧
        (s.device_open = 0 ∨ samplerate ≠ s.have_samplerate ∨ channels ≠ s.have_channels)) ∧
      e.sdl_open_ok = false) ∧
    ((audio_device_open e s samplerate channels).1 = -3 →
      (audio_device_open e s samplerate channels).2.event_queue =
        s.event_queue ++ [(GmuEvent.GMU_ERROR, GmuError.GMU_ERROR_CANNOT_OPEN_AUDIO_DEVICE)]) ∧
    ((audio_device_open e s samplerate channels).1 ≠ -3 →
      (audio_device_open e s samplerate channels).2.event_queue = s.event_queue) := by
  have hclose : ∀ t : State, (audio_device_close t).event_queue = t.event_queue := by
    intro t
    simp only [audio_device_close, audio_set_pause]
    split_ifs <;> rfl
  cases hl : e.p_audio2 <;> cases ho : e.sdl_open_ok <;> cases hv : e.v_audio2 <;>
    cases hp : e.p_audio <;>
    by_cases hd : s.device_open = 0 <;>
    by_cases hr : samplerate = s.have_samplerate <;>
    by_cases hc : channels = s.have_channels <;>
    simp [audio_device_open, hl, ho, hv, hp, hd, hr, hc, hclose]

/-- Example for C4: on the freshly initialised (closed) session, an open at
(44100, 2) that the device refuses returns -3 and leaves exactly one event in
the queue. -/
theorem C4_open_failure_event_witness :
    (audio_device_open open_refused fresh 44100 2).1 = -3 ∧
    (audio_device_open open_refused fresh 44100 2).2.event_queue =
      fresh.event_queue ++ [(GmuEvent.GMU_ERROR, GmuError.GMU_ERROR_CANNOT_OPEN_AUDIO_DEVICE)] ∧
    fresh.event_queue = [] :=
  ⟨rfl, (C4_open_failure_event open_refused fresh 44100 2).2.1 rfl, rfl⟩

/-! ## Pull callback: lemmas -/

/-- The function `audio_set_pause` touches neither the ring buffer nor the
byte counter. -/
theorem audio_set_pause_frame (s : State) (pause_state : Int) :
    (audio_set_pause s pause_state).2.audio_rb = s.audio_rb ∧
    (audio_set_pause s pause_state).2.buf_read_counter = s.buf_read_counter := by
  simp only [audio_set_pause]
  split_ifs <;> exact ⟨rfl, rfl⟩

/-- The empty-buffer branch, when it returns, touches neither the ring buffer
nor the byte counter. -/
theorem underrun_policy_frame (e : FillEnv) (fuel : Nat) (s t : State)
    (h : underrun_policy e fuel s = some t) :
    t.audio_rb = s.audio_rb ∧ t.buf_read_counter = s.buf_read_counter := by
  simp only [underrun_policy] at h
  split_ifs at h <;> simp only [Option.some.injEq] at h <;> subst h <;>
    first
      | exact ⟨rfl, rfl⟩
      | exact audio_set_pause_frame _ 1

/-- The low-water part, when it returns, touches neither the ring buffer nor
the byte counter. -/
theorem low_water_frame (P : Platform) (e : FillEnv) (fuel : Nat) (s t : State)
    (h : low_water P e fuel s = some t) :
    t.audio_rb = s.audio_rb ∧ t.buf_read_counter = s.buf_read_counter := by
  simp only [low_water] at h
  split_ifs at h
  all_goals first
    | (simp only [Option.some.injEq] at h; subst h; exact ⟨rfl, rfl⟩)
    | (have h2 := underrun_policy_frame e fuel _ t h; exact h2)

/-- A callback that does not reach the wait loop returns. -/
theorem low_water_returns (P : Platform) (e : FillEnv) (fuel : Nat) (s : State)
    (h : enters_wait P e s = false) : ∃ t, low_water P e fuel s = some t := by
  simp only [enters_wait, Bool.and_eq_false_iff, decide_eq_false_iff_not] at h
  simp only [low_water, underrun_policy]
  split_ifs <;> first | exact ⟨_, rfl⟩ | (exfalso; simp_all)

/-- A read that fits the fill is accepted and takes the oldest `n` bytes. -/
theorem ringbuffer_read_ok (rb : RingBuffer) (n : Nat) (h : n ≤ ringbuffer_get_fill rb) :
    ringbuffer_read rb n = (1, { rb with data := rb.data.drop n }, rb.data.take n) := by
  have h' : ¬ n > ringbuffer_get_fill rb := Nat.not_lt.mpr h
  simp only [ringbuffer_read, h', if_false]

/-- A read larger than the fill is rejected and leaves the buffer as it was. -/
theorem ringbuffer_read_rejected (rb : RingBuffer) (n : Nat) (h : ringbuffer_get_fill rb < n) :
    ringbuffer_read rb n = (0, rb, []) := by
  simp only [ringbuffer_read, gt_iff_lt, h, if_true]

/-- A full read: the request fits the fill, the counter advances by `len`
(modulo the width of `unsigned long`) and `len` bytes leave the buffer. -/
theorem read_block_full (P : Platform) (e : FillEnv) (s : State) (len : Nat)
    (hcnt : e.p_audio2_cnt = true) (h : len ≤ ringbuffer_get_fill s.audio_rb) :
    (read_block P e s len).buf_read_counter =
      (s.buf_read_counter + len) % 2 ^ P.ULONG_BITS ∧
    ringbuffer_get_fill (read_block P e s len).audio_rb =
      ringbuffer_get_fill s.audio_rb - len := by
  simp only [read_block, ringbuffer_read_ok s.audio_rb len h, hcnt]
  simp [ringbuffer_get_fill]

/-- A short read: the request exceeds the fill, the counter advances by the
fill (modulo the width of `unsigned long`) and the buffer is left empty. -/
theorem read_block_short (P : Platform) (e : FillEnv) (s : State) (len : Nat)
    (hcnt : e.p_audio2_cnt = true) (h : ringbuffer_get_fill s.audio_rb < len) :
    (read_block P e s len).buf_read_counter =
      (s.buf_read_counter + ringbuffer_get_fill s.audio_rb) % 2 ^ P.ULONG_BITS ∧
    ringbuffer_get_fill (read_block P e s len).audio_rb = 0 := by
  have h0 : ringbuffer_read s.audio_rb (ringbuffer_get_fill s.audio_rb) =
      (1, { s.audio_rb with data := [] }, s.audio_rb.data) := by
    rw [ringbuffer_read_ok s.audio_rb _ (Nat.le_refl _)]
    simp [ringbuffer_get_fill]
  simp only [read_block, ringbuffer_read_rejected s.audio_rb len h, h0, hcnt]
  simp [ringbuffer_get_fill]

/-- The visualization tap and the mix call touch neither the ring buffer, the
byte counter nor the pause flag. -/
theorem tap_mix_frame (P : Platform) (g : Nat → Int) (s : State) (len : Nat) :
    (mix_audio (spectrum_tap P g s) len).audio_rb = s.audio_rb ∧
    (mix_audio (spectrum_tap P g s) len).buf_read_counter = s.buf_read_counter ∧
    (mix_audio (spectrum_tap P g s) len).paused = s.paused := by
  simp only [mix_audio, spectrum_tap]
  split_ifs <;> exact ⟨rfl, rfl, rfl⟩

/-! ## Claim C5: byte counter and fill across one callback -/

/-- A non-negative value below half the range is unchanged by conversion to a
signed type. -/
theorem wrapS_of_nonneg (bits : Nat) (x : Int) (hb : 0 < bits) (h0 : 0 ≤ x)
    (h1 : x < 2 ^ (bits - 1)) : wrapS bits x = x := by
  have hpow : (2 : Int) ^ bits = 2 * 2 ^ (bits - 1) := by
    obtain ⟨k, rfl⟩ : ∃ k, bits = k + 1 := ⟨bits - 1, by omega⟩
    simp [pow_succ, mul_comm]
  have hpos : (0 : Int) < 2 ^ (bits - 1) := by positivity
  unfold wrapS
  rw [Int.emod_eq_of_lt (by omega) (by omega)]
  omega

/-- A non-negative value below the range is unchanged by conversion to an
unsigned type. -/
theorem wrapU_of_nonneg (bits : Nat) (x : Int) (h0 : 0 ≤ x) (h1 : x < 2 ^ bits) :
    wrapU bits x = x.toNat := by
  unfold wrapU
  rw [Int.emod_eq_of_lt h0 h1]

/-- Evaluation of `audio_get_playtime` when neither the divisor nor the result
leaves the range of `int`: the quotient of the byte counter by the bytes per
second, times 1000, computed on natural numbers. -/
theorem audio_get_playtime_nat (P : Platform) (s : State) (hbits : 32 ≤ P.ULONG_BITS)
    (hR : 0 < s.have_samplerate) (hC : 0 < s.have_channels)
    (hdiv : s.have_samplerate * 2 * s.have_channels < 2 ^ 31)
    (hres : s.buf_read_counter / (s.have_samplerate * 2 * s.have_channels).toNat * 1000
      < 2 ^ 31) :
    audio_get_playtime P true s =
      some (((s.buf_read_counter / (s.have_samplerate * 2 * s.have_channels).toNat * 1000 : Nat)
        : Int), s) := by
  have hpos : 0 < s.have_samplerate * 2 * s.have_channels := by positivity
  have hle : (2 : Int) ^ 31 ≤ 2 ^ P.ULONG_BITS :=
    pow_le_pow_right₀ (by norm_num) (by omega)
  have hleN : (2 : Nat) ^ 31 ≤ 2 ^ P.ULONG_BITS :=
    Nat.pow_le_pow_right (by norm_num) (by omega)
  have hd1 : wrapS 32 (s.have_samplerate * 2 * s.have_channels)
      = s.have_samplerate * 2 * s.have_channels :=
    wrapS_of_nonneg 32 _ (by norm_num) hpos.le (by simpa using hdiv)
  have hd2 : wrapU P.ULONG_BITS (s.have_samplerate * 2 * s.have_channels)
      = (s.have_samplerate * 2 * s.have_channels).toNat :=
    wrapU_of_nonneg _ _ hpos.le (by omega)
  have hne : (s.have_samplerate * 2 * s.have_channels).toNat ≠ 0 := by omega
  simp only [audio_get_playtime, if_true, hd1, hd2, hne, if_false,
    Nat.mod_eq_of_lt (Nat.lt_of_lt_of_le hres hleN)]
  rw [wrapS_of_nonneg 32 _ (by norm_num) (by positivity) (by exact_mod_cast hres)]

/-- The quotient of `audio_get_playtime` on natural numbers is the integer
quotient b / (R·2·C). -/
theorem playtime_quotient_cast (s : State) (hR : 0 < s.have_samplerate)
    (hC : 0 < s.have_channels) :
    ((s.buf_read_counter / (s.have_samplerate * 2 * s.have_channels).toNat * 1000 : Nat) : Int)
      = (s.buf_read_counter : Int) / (s.have_samplerate * 2 * s.have_channels) * 1000 := by
  have hpos : 0 < s.have_samplerate * 2 * s.have_channels := by positivity
  push_cast
  rw [Int.toNat_of_nonneg hpos.le]

/-! ## Claim C6: playtime -/

/-- C6 (as stated, refuted): the state `seek_3000000` has rate 1, channels 1
and byte counter 6000000, so b / (R·2·C) · 1000 is 3000000000; the function
`audio_get_playtime` returns -1294967296, because the product is converted
to `int`. -/
theorem C6_counterexample :
    seek_3000000.have_samplerate = 1 ∧ seek_3000000.have_channels = 1 ∧
    seek_3000000.buf_read_counter = 6000000 ∧
    audio_get_playtime example_platform true seek_3000000 = some (-1294967296, seek_3000000) ∧
    (seek_3000000.buf_read_counter : Int) /
      (seek_3000000.have_samplerate * 2 * seek_3000000.have_channels) * 1000 = 3000000000 :=
  ⟨rfl, rfl, rfl, rfl, by decide⟩

/-- C6 (amended): for every state with rate R > 0, channels C > 0 and byte
counter b such that R·2·C and b / (R·2·C) · 1000 are below 2^31 (they fit
`int`), `audio_get_playtime` (lock acquired, `long` of at least 32 bits)
returns b / (R·2·C) · 1000, the division being the integer division, and
leaves the state as it was. -/
theorem C6_playtime_formula (P : Platform) (s : State) (hbits : 32 ≤ P.ULONG_BITS)
    (hR : 0 < s.have_samplerate) (hC : 0 < s.have_channels)
    (hdiv : s.have_samplerate * 2 * s.have_channels < 2 ^ 31)
    (hres : (s.buf_read_counter : Int) / (s.have_samplerate * 2 * s.have_channels) * 1000
      < 2 ^ 31) :
    audio_get_playtime P true s =
      some ((s.buf_read_counter : Int) / (s.have_samplerate * 2 * s.have_channels) * 1000, s) := by
  have hq := playtime_quotient_cast s hR hC
  have hresN : s.buf_read_counter / (s.have_samplerate * 2 * s.have_channels).toNat * 1000
      < 2 ^ 31 := by
    have h : ((s.buf_read_counter / (s.have_samplerate * 2 * s.have_channels).toNat * 1000 : Nat)
        : Int) < 2 ^ 31 := by rw [hq]; exact hres
    exact_mod_cast h
  rw [audio_get_playtime_nat P s hbits hR hC hdiv hresN, hq]

/-- Witness for C6 (amended): at (44100, 2) with 352800 bytes delivered the playtime is
2000 ms. -/
theorem C6_playtime_formula_witness :
    audio_get_playtime example_platform true two_seconds =
      some ((two_seconds.buf_read_counter : Int) /
        (two_seconds.have_samplerate * 2 * two_seconds.have_channels) * 1000, two_seconds) ∧
    (two_seconds.buf_read_counter : Int) /
        (two_seconds.have_samplerate * 2 * two_seconds.have_channels) * 1000 = 2000 :=
  ⟨C6_playtime_formula example_platform two_seconds (by decide) (by decide) (by decide)
    (by decide) (by decide), by decide⟩

/-! ## Claim C7: the byte counter along sequences of operations -/

/-- The function `audio_device_close` does not touch the byte counter. -/
theorem audio_device_close_counter (s : State) :
    (audio_device_close s).buf_read_counter = s.buf_read_counter := by
  simp only [audio_device_close]
  split_ifs
  · exact (audio_set_pause_frame s 1).2
  · rfl

/-- With the lock acquired, `audio_device_open` leaves the byte counter at 0
on every path. -/
theorem audio_device_open_counter (e : OpenEnv) (s : State) (samplerate channels : Int)
    (hlock : e.p_audio2 = true) :
    (audio_device_open e s samplerate channels).2.buf_read_counter = 0 := by
  have hc := audio_device_close_counter { s with buf_read_counter := 0 }
  simp only [audio_device_open, hlock, if_true]
  split_ifs <;> first | rfl | exact hc

/-- The read step never lowers the byte counter when the request leaves room
in the `unsigned long`. -/
theorem read_block_counter_le (P : Platform) (e : FillEnv) (s : State) (len : Nat)
    (hroom : s.buf_read_counter + len < 2 ^ P.ULONG_BITS) :
    s.buf_read_counter ≤ (read_block P e s len).buf_read_counter := by
  cases hcnt : e.p_audio2_cnt
  · simp only [read_block, hcnt, Bool.false_eq_true, if_false]
    split_ifs <;> exact Nat.le_refl _
  · rcases Nat.lt_or_ge (ringbuffer_get_fill s.audio_rb) len with hlt | hge
    · rw [(read_block_short P e s len hcnt hlt).1, Nat.mod_eq_of_lt (by omega)]
      omega
    · rw [(read_block_full P e s len hcnt hge).1, Nat.mod_eq_of_lt hroom]
      omega

/-- One step that is neither a seek nor a device open does not lower the byte
counter, a callback being given room for its request. -/
theorem step_counter_le (P : Platform) (s s' : State) (op : Op)
    (hseek : op.is_seek = false) (hopen : op.is_device_open = false)
    (hroom : op.has_room P s = true)
    (h : step P s op = some s') : s.buf_read_counter ≤ s'.buf_read_counter := by
  cases op with
  | device_open e sr ch => simp [Op.is_device_open] at hopen
  | device_close =>
    simp only [step, Option.some.injEq] at h
    subst h
    exact (audio_device_close_counter s).ge
  | set_pause p =>
    simp only [step, Option.some.injEq] at h
    subst h
    exact (audio_set_pause_frame s p).2.ge
  | set_done p =>
    simp only [step, Option.some.injEq] at h
    subst h
    simp only [audio_set_done]
    split_ifs <;> exact Nat.le_refl _
  | fill_buffer p data size =>
    simp only [step, Option.some.injEq] at h
    subst h
    simp only [audio_fill_buffer]
    split_ifs <;> exact Nat.le_refl _
  | buffer_clear p =>
    simp only [step, Option.some.injEq] at h
    subst h
    have h1 := (audio_set_pause_frame s 1).2
    simp only [audio_buffer_clear]
    split_ifs <;> exact h1.ge
  | callback e fuel len =>
    simp only [step, fill_audio, Option.map_eq_some'] at h
    obtain ⟨t, ht, rfl⟩ := h
    obtain ⟨-, hctr⟩ := low_water_frame P e fuel s t ht
    rw [(tap_mix_frame P e.garbage (read_block P e t len) len).2.1, ← hctr]
    exact read_block_counter_le P e t len (by rw [hctr]; simpa [Op.has_room] using hroom)
  | set_sample_counter p sample => simp [Op.is_seek] at hseek
  | increase_sample_counter p off => simp [Op.is_seek] at hseek

/-- The byte counter along a sequence of operations without seeks and opens. -/
theorem trajectory_counter_chain (P : Platform) (ops : List Op) :
    ∀ s : State,
      (∀ op ∈ ops, op.is_seek = false ∧ op.is_device_open = false) →
      counter_has_room P s ops = true →
      List.Chain (fun a b : State => a.buf_read_counter ≤ b.buf_read_counter) s
        (trajectory P s ops) := by
  induction ops with
  | nil => intro s _ _; exact List.Chain.nil
  | cons op ops ih =>
    intro s hops hroom
    have hop := hops op (List.mem_cons_self _ _)
    simp only [counter_has_room, Bool.and_eq_true] at hroom
    simp only [trajectory]
    cases hstep : step P s op with
    | none => exact List.Chain.nil
    | some s' =>
      simp only [hstep] at hroom
      exact List.Chain.cons (step_counter_le P s s' op hop.1 hop.2 hroom.1 hstep)
        (ih s' (fun o ho => hops o (List.mem_cons_of_mem _ ho)) hroom.2)

/-- C7 (as stated, refuted): the sequence `reopen_ops` contains no seek, and
run from the freshly initialised state its byte counters are 0, 0, 8, 0: the
second `audio_device_open` lowers the counter from 8 to 0. -/
theorem C7_counterexample :
    reopen_ops.all (fun op => !op.is_seek) = true ∧
    (trajectory example_platform fresh reopen_ops).map (fun s => s.buf_read_counter) =
      [0, 0, 8, 0] := by
  constructor <;> rfl

/-- C7 (amended): along every sequence of operations that contains no
set-sample-counter, no increase-sample-counter and no device-open call (any
mix of device-close, set-pause, set-done, fill-buffer, buffer-clear and
callback invocations), the byte counter never decreases from one step to the
next, as long as no callback wraps the `unsigned long` counter around; a
device-open that acquires its lock sets the counter to 0. -/
theorem C7_counter_monotone_without_open (P : Platform) (s : State) (ops : List Op)
    (hops : ∀ op ∈ ops, op.is_seek = false ∧ op.is_device_open = false)
    (hroom : counter_has_room P s ops = true) :
    List.Chain (fun a b : State => a.buf_read_counter ≤ b.buf_read_counter) s
      (trajectory P s ops) ∧
    ∀ (e : OpenEnv) (samplerate channels : Int), e.p_audio2 = true →
      (audio_device_open e s samplerate channels).2.buf_read_counter = 0 :=
  ⟨trajectory_counter_chain P ops s hops hroom,
   fun e samplerate channels hlock => audio_device_open_counter e s samplerate channels hlock⟩

/-- Witness for C7 (amended): on the open session with counter 8, the sequence
`play_ops` (write, two callbacks, done, pause, clear, close) visits the
counters 8, 16, 16, 16, 16, 16, 16. -/
theorem C7_counter_monotone_without_open_witness :
    (trajectory example_platform open_session play_ops).map (fun s => s.buf_read_counter) =
      [8, 16, 16, 16, 16, 16, 16] ∧
    (List.Chain (fun a b : State => a.buf_read_counter ≤ b.buf_read_counter) open_session
      (trajectory example_platform open_session play_ops) ∧
    ∀ (e : OpenEnv) (samplerate channels : Int), e.p_audio2 = true →
      (audio_device_open e open_session samplerate channels).2.buf_read_counter = 0) :=
  ⟨rfl, C7_counter_monotone_without_open example_platform open_session play_ops
    (by
      intro op hop
      simp only [play_ops, List.mem_cons, List.mem_singleton, List.not_mem_nil, or_false] at hop
      rcases hop with h | h | h | h | h | h | h <;> subst h <;> exact ⟨rfl, rfl⟩)
    rfl⟩

/-! ## Claim C8: underrun with the done flag set -/

/-- The read step touches only the ring buffer, the scratch buffer and the
byte counter. -/
theorem read_block_frame (P : Platform) (e : FillEnv) (s : State) (len : Nat) :
    (read_block P e s len).paused = s.paused ∧
    (read_block P e s len).sdl = s.sdl ∧
    (read_block P e s len).volume = s.volume ∧
    (read_block P e s len).volume_fade_percent = s.volume_fade_percent ∧
    (read_block P e s len).have_samplerate = s.have_samplerate ∧
    (read_block P e s len).have_channels = s.have_channels := by
  simp only [read_block]
  split_ifs <;> exact ⟨rfl, rfl, rfl, rfl, rfl, rfl⟩

/-- The visualization tap touches only the published amplitudes. -/
theorem spectrum_tap_frame (P : Platform) (g : Nat → Int) (s : State) :
    (spectrum_tap P g s).paused = s.paused ∧
    (spectrum_tap P g s).sdl = s.sdl ∧
    (spectrum_tap P g s).volume = s.volume ∧
    (spectrum_tap P g s).volume_fade_percent = s.volume_fade_percent ∧
    (spectrum_tap P g s).have_samplerate = s.have_samplerate ∧
    (spectrum_tap P g s).have_channels = s.have_channels := by
  simp only [spectrum_tap]
  split_ifs <;> exact ⟨rfl, rfl, rfl, rfl, rfl, rfl⟩

/-- After the low-water part has produced `t`, the rest of the callback keeps
the pause flag, the rate and the channels of `t` and appends one mix call. -/
theorem deliver_frame (P : Platform) (e : FillEnv) (t : State) (len : Nat) :
    (mix_audio (spectrum_tap P e.garbage (read_block P e t len)) len).paused = t.paused ∧
    (mix_audio (spectrum_tap P e.garbage (read_block P e t len)) len).sdl =
      t.sdl ++ [SdlCall.MixAudio len (t.volume * t.volume_fade_percent % 2 ^ 32 / 100)] ∧
    (mix_audio (spectrum_tap P e.garbage (read_block P e t len)) len).have_samplerate =
      t.have_samplerate ∧
    (mix_audio (spectrum_tap P e.garbage (read_block P e t len)) len).have_channels =
      t.have_channels := by
  obtain ⟨r1, r2, r3, r4, r5, r6⟩ := read_block_frame P e t len
  obtain ⟨p1, p2, p3, p4, p5, p6⟩ := spectrum_tap_frame P e.garbage (read_block P e t len)
  simp only [mix_audio]
  refine ⟨p1.trans r1, ?_, p5.trans r5, p6.trans r6⟩
  rw [p2, p3, p4, r2, r3, r4]

/-- With bytes queued the low-water part only signals the condition (below
three times `MIN_BUFFER_FILL`): the empty-buffer branch is not entered. -/
theorem low_water_nonempty (P : Platform) (e : FillEnv) (fuel : Nat) (s : State)
    (h : 0 < ringbuffer_get_fill s.audio_rb) :
    low_water P e fuel s = some
      (if ringbuffer_get_fill s.audio_rb < P.MIN_BUFFER_FILL * 3 then
        { s with sdl := s.sdl ++ [SdlCall.CondSignal] } else s) := by
  have h0 : ringbuffer_get_fill s.audio_rb ≠ 0 := by omega
  simp only [low_water]
  split_ifs <;> rfl

/-- On an empty buffer with the done flag set, on an open session that is
playing, the low-water part pauses the session. -/
theorem low_water_empty_done (P : Platform) (e : FillEnv) (fuel : Nat) (s : State)
    (hfill : ringbuffer_get_fill s.audio_rb = 0) (hmin : 0 < P.MIN_BUFFER_FILL)
    (hv : e.v_audio = true) (hp : e.p_audio2_done = true)
    (hopen : s.device_open ≠ 0) (hplay : s.paused = 0) (hdone : s.done ≠ 0) :
    low_water P e fuel s = some
      { s with paused := 1, amplitudes := List.replicate 16 0,
               sdl := s.sdl ++ [SdlCall.CondSignal, SdlCall.PauseAudio 1,
                                SdlCall.PauseAudio 1] } := by
  have h3 : ringbuffer_get_fill s.audio_rb < P.MIN_BUFFER_FILL * 3 := by omega
  have h1 : ringbuffer_get_fill s.audio_rb < P.MIN_BUFFER_FILL := by omega
  simp only [low_water, if_pos h3]
  rw [if_pos (show ringbuffer_get_fill s.audio_rb < P.MIN_BUFFER_FILL from h1),
    if_pos (show ringbuffer_get_fill s.audio_rb = 0 from hfill)]
  simp [underrun_policy, audio_set_pause, hv, hp, hopen, hplay, hdone]

/-- C8 (as stated, refuted): on the open, playing session `underrun_pre`
(done flag set, 8192 bytes queued) a callback for 16384 bytes underruns, yet
it returns with the pause flag still 0 and without any pause request: its SDL
calls are the condition signal and the mix only. -/
theorem C8_counterexample :
    underrun_pre.device_open = 1 ∧ underrun_pre.paused = 0 ∧ underrun_pre.done = 1 ∧
    ringbuffer_get_fill underrun_pre.audio_rb = 8192 ∧
    (fill_audio example_platform fill_ok 0 underrun_pre 16384).map
        (fun s => (s.paused, s.sdl.drop underrun_pre.sdl.length)) =
      some (0, [SdlCall.CondSignal, SdlCall.MixAudio 16384 128]) := by
  have hfill : ringbuffer_get_fill underrun_pre.audio_rb = 8192 :=
    (audio_fill_buffer_fill _ _ 8192 (by decide)).trans rfl
  refine ⟨rfl, rfl, rfl, hfill, ?_⟩
  have hlw := low_water_nonempty example_platform fill_ok 0 underrun_pre (by rw [hfill]; decide)
  rw [if_pos (by rw [hfill]; decide)] at hlw
  obtain ⟨d1, d2, -, -⟩ := deliver_frame example_platform fill_ok
    { underrun_pre with sdl := underrun_pre.sdl ++ [SdlCall.CondSignal] } 16384
  simp only [fill_audio, hlw, Option.map_some', d1, d2]
  rfl

/-- C8 (amended): for every open, playing (not paused) session whose done flag
is set, a callback invocation that finds the ring buffer empty (the underrun
the code acts on; mutex calls succeeding, `MIN_BUFFER_FILL` positive) returns
with the device paused: the pause flag is 1 and its SDL calls are the
condition signal, `SDL_PauseAudio(1)` twice and the mix.  A callback that
finds bytes queued, even fewer than requested, returns with the pause flag
still 0 and requests no pause. -/
theorem C8_underrun_done_pauses_when_empty (P : Platform) (e : FillEnv) (fuel : Nat)
    (s : State) (len : Nat)
    (hopen : s.device_open ≠ 0) (hplay : s.paused = 0) (hdone : s.done ≠ 0)
    (hmin : 0 < P.MIN_BUFFER_FILL) (hv : e.v_audio = true) (hp : e.p_audio2_done = true) :
    ∃ s', fill_audio P e fuel s len = some s' ∧
      (ringbuffer_get_fill s.audio_rb = 0 →
        s'.paused = 1 ∧
        s'.sdl = s.sdl ++ [SdlCall.CondSignal, SdlCall.PauseAudio 1, SdlCall.PauseAudio 1,
          SdlCall.MixAudio len (s.volume * s.volume_fade_percent % 2 ^ 32 / 100)]) ∧
      (0 < ringbuffer_get_fill s.audio_rb →
        s'.paused = 0 ∧
        s'.sdl = s.sdl ++
          (if ringbuffer_get_fill s.audio_rb < P.MIN_BUFFER_FILL * 3
            then [SdlCall.CondSignal] else []) ++
          [SdlCall.MixAudio len (s.volume * s.volume_fade_percent % 2 ^ 32 / 100)]) := by
  rcases Nat.eq_zero_or_pos (ringbuffer_get_fill s.audio_rb) with h0 | hpos
  · obtain ⟨t, ht, tp, ts, tv, tf⟩ : ∃ t, low_water P e fuel s = some t ∧ t.paused = 1 ∧
        t.sdl = s.sdl ++ [SdlCall.CondSignal, SdlCall.PauseAudio 1, SdlCall.PauseAudio 1] ∧
        t.volume = s.volume ∧ t.volume_fade_percent = s.volume_fade_percent :=
      ⟨_, low_water_empty_done P e fuel s h0 hmin hv hp hopen hplay hdone, rfl, rfl, rfl, rfl⟩
    obtain ⟨d1, d2, -, -⟩ := deliver_frame P e t len
    refine ⟨mix_audio (spectrum_tap P e.garbage (read_block P e t len)) len, ?_, ?_, ?_⟩
    · simp only [fill_audio, ht, Option.map_some']
    · intro _
      rw [d1, d2, tp, ts, tv, tf]
      exact ⟨rfl, by simp⟩
    · intro h
      omega
  · obtain ⟨t, ht, tp, ts, tv, tf⟩ : ∃ t, low_water P e fuel s = some t ∧ t.paused = s.paused ∧
        t.sdl = s.sdl ++ (if ringbuffer_get_fill s.audio_rb < P.MIN_BUFFER_FILL * 3
            then [SdlCall.CondSignal] else []) ∧
        t.volume = s.volume ∧ t.volume_fade_percent = s.volume_fade_percent := by
      refine ⟨_, low_water_nonempty P e fuel s hpos, ?_⟩
      split_ifs <;> simp
    obtain ⟨d1, d2, -, -⟩ := deliver_frame P e t len
    refine ⟨mix_audio (spectrum_tap P e.garbage (read_block P e t len)) len, ?_, ?_, ?_⟩
    · simp only [fill_audio, ht, Option.map_some']
    · intro h
      omega
    · intro _
      rw [d1, d2, tp, ts, tv, tf]
      exact ⟨hplay, rfl⟩

/-- Witness for C8 (amended): the open, playing session `open_session` with
the done flag set and an empty ring buffer; a callback for 16384 bytes leaves
it paused. -/
theorem C8_underrun_done_pauses_when_empty_witness :
    ∃ s', fill_audio example_platform fill_ok 0 (audio_set_done true open_session) 16384
        = some s' ∧
      (ringbuffer_get_fill (audio_set_done true open_session).audio_rb = 0 →
        s'.paused = 1 ∧
        s'.sdl = (audio_set_done true open_session).sdl ++
          [SdlCall.CondSignal, SdlCall.PauseAudio 1, SdlCall.PauseAudio 1,
            SdlCall.MixAudio 16384 ((audio_set_done true open_session).volume *
              (audio_set_done true open_session).volume_fade_percent % 2 ^ 32 / 100)]) ∧
      (0 < ringbuffer_get_fill (audio_set_done true open_session).audio_rb →
        s'.paused = 0 ∧
        s'.sdl = (audio_set_done true open_session).sdl ++
          (if ringbuffer_get_fill (audio_set_done true open_session).audio_rb <
              example_platform.MIN_BUFFER_FILL * 3
            then [SdlCall.CondSignal] else []) ++
          [SdlCall.MixAudio 16384 ((audio_set_done true open_session).volume *
            (audio_set_done true open_session).volume_fade_percent % 2 ^ 32 / 100)]) :=
  C8_underrun_done_pauses_when_empty example_platform fill_ok 0
    (audio_set_done true open_session) 16384 (by decide) rfl (by decide) (by decide) rfl rfl

/-! ## Claim C9: playtime after the underrun scenario -/

/-- The function `audio_set_pause` does not touch the rate and channels. -/
theorem audio_set_pause_session (s : State) (pause_state : Int) :
    (audio_set_pause s pause_state).2.have_samplerate = s.have_samplerate ∧
    (audio_set_pause s pause_state).2.have_channels = s.have_channels := by
  simp only [audio_set_pause]
  split_ifs <;> exact ⟨rfl, rfl⟩

/-- The low-water part, when it returns, does not touch the rate and channels. -/
theorem low_water_session (P : Platform) (e : FillEnv) (fuel : Nat) (s t : State)
    (h : low_water P e fuel s = some t) :
    t.have_samplerate = s.have_samplerate ∧ t.have_channels = s.have_channels := by
  simp only [low_water, underrun_policy] at h
  split_ifs at h
  all_goals first
    | (simp only [Option.some.injEq] at h; subst h; exact ⟨rfl, rfl⟩)
    | (simp only [Option.some.injEq] at h; subst h
       have h2 := audio_set_pause_session
         { s with sdl := s.sdl ++ [SdlCall.CondSignal] ++ [SdlCall.PauseAudio 1] } 1
       exact h2)
    | (simp only [Option.some.injEq] at h; subst h
       have h2 := audio_set_pause_session { s with sdl := s.sdl ++ [SdlCall.PauseAudio 1] } 1
       exact h2)

/-- C10 (as stated, refuted): on the freshly initialised state (one channel,
64-bit `long`) `audio_set_sample_counter(-1)` stores -2 into the
`unsigned long` counter, and `audio_get_sample_count` then returns
9223372036854775807, not -1. -/
theorem C10_counterexample :
    fresh.have_channels = 1 ∧
    (audio_set_sample_counter example_platform true fresh (-1)).2.buf_read_counter =
      18446744073709551614 ∧
    (audio_get_sample_count example_platform true
        (audio_set_sample_counter example_platform true fresh (-1)).2).map Prod.fst =
      some 9223372036854775807 := by
  refine ⟨rfl, rfl, rfl⟩

/-- C10 (amended): for every sample count s ≥ 0 and every channel count C ≥ 1
of the session such that s·2·C fits a `long` (and 2·C an `int`),
`audio_set_sample_counter(s)` followed by `audio_get_sample_count()` returns
s, with the counter holding s·2·C bytes (locks acquired, `long` of at least 32
bits). -/
theorem C10_sample_counter_roundtrip (P : Platform) (s : State) (sample : Int)
    (hbits : 32 ≤ P.ULONG_BITS) (h0 : 0 ≤ sample) (hC : 0 < s.have_channels)
    (hC31 : 2 * s.have_channels < 2 ^ 31)
    (hfit : sample * 2 * s.have_channels < 2 ^ (P.ULONG_BITS - 1)) :
    ((audio_set_sample_counter P true s sample).2.buf_read_counter : Int) =
      sample * 2 * s.have_channels ∧
    audio_get_sample_count P true (audio_set_sample_counter P true s sample).2 =
      some (sample, (audio_set_sample_counter P true s sample).2) := by
  have hw : 0 < P.ULONG_BITS := by omega
  have hprod0 : 0 ≤ sample * 2 * s.have_channels := by positivity
  have hhalf : (2 : Int) ^ (P.ULONG_BITS - 1) ≤ 2 ^ P.ULONG_BITS :=
    pow_le_pow_right₀ (by norm_num) (by omega)
  have h31 : (2 : Int) ^ 31 ≤ 2 ^ P.ULONG_BITS :=
    pow_le_pow_right₀ (by norm_num) (by omega)
  have hc : (audio_set_sample_counter P true s sample).2 =
      { s with buf_read_counter := (sample * 2 * s.have_channels).toNat } := by
    simp only [audio_set_sample_counter, if_true]
    rw [wrapS_of_nonneg _ _ hw hprod0 hfit, wrapU_of_nonneg _ _ hprod0 (by omega)]
  have hd : wrapU P.ULONG_BITS (wrapS 32 (2 * s.have_channels)) = (2 * s.have_channels).toNat := by
    rw [wrapS_of_nonneg 32 _ (by norm_num) (by positivity) (by simpa using hC31),
      wrapU_of_nonneg _ _ (by positivity) (by omega)]
  have hne : (2 * s.have_channels).toNat ≠ 0 := by omega
  have hq : (((sample * 2 * s.have_channels).toNat / (2 * s.have_channels).toNat : Nat) : Int)
      = sample := by
    push_cast
    rw [Int.toNat_of_nonneg hprod0, Int.toNat_of_nonneg (by positivity), mul_assoc]
    exact Int.mul_ediv_cancel sample (by omega)
  have hs : sample < 2 ^ (P.ULONG_BITS - 1) := by
    have : sample ≤ sample * 2 * s.have_channels := by nlinarith
    omega
  rw [hc]
  refine ⟨Int.toNat_of_nonneg hprod0, ?_⟩
  simp only [audio_get_sample_count, if_true, hd, hne, if_false]
  rw [hq, wrapS_of_nonneg _ _ hw h0 hs]

/-- Witness for C10 (amended): the seek scenario of the spec, at (44100, 2)
with s = 88200; the sample count read back is 88200 and the playtime is
2000 ms. -/
theorem C10_sample_counter_roundtrip_witness :
    (((audio_set_sample_counter example_platform true open_session 88200).2.buf_read_counter
        : Int) = 88200 * 2 * open_session.have_channels ∧
      audio_get_sample_count example_platform true
          (audio_set_sample_counter example_platform true open_session 88200).2 =
        some (88200, (audio_set_sample_counter example_platform true open_session 88200).2)) ∧
    (audio_get_playtime example_platform true
        (audio_set_sample_counter example_platform true open_session 88200).2).map Prod.fst =
      some 2000 :=
  ⟨C10_sample_counter_roundtrip example_platform open_session 88200 (by decide) (by decide)
    (by decide) (by decide) (by decide), rfl⟩

/-! ## Claims C11 and C12: software volume -/

/-- For a non-negative argument the index computed by `audio_set_volume` is
the argument capped at 15. -/
theorem volume_index_of_nonneg (vol : Int) (h : 0 ≤ vol) :
    volume_index vol = (min vol 15).toNat := by
  have h15 : (min vol 15 : Int) < 2 ^ 32 := by
    have : min vol 15 ≤ 15 := min_le_right _ _
    omega
  have hmin : (if vol < AUDIO_MAX_SW_VOLUME then vol else AUDIO_MAX_SW_VOLUME - 1) = min vol 15 := by
    simp only [AUDIO_MAX_SW_VOLUME]
    split_ifs with hlt
    · exact (min_eq_left (by omega)).symm
    · exact (min_eq_right (by omega)).symm
  simp only [volume_index, hmin, wrapU_of_nonneg 32 _ (le_min h (by norm_num)) h15]
  split_ifs <;> omega

/-- C11 (code evaluated at the failing input): `audio_set_volume(-1)` computes
the index 4294967295, not 0: the conversion to `unsigned int` happens before
the lower clamp, which therefore never applies.  `volume_array` is then read
outside its 16 entries, and the index read back as `int` is -1. -/
theorem C11_set_volume_negative :
    volume_index (-1) = 4294967295 ∧
    volume_array[volume_index (-1)]? = none ∧
    (audio_set_volume fresh (-1)).isNone = true ∧
    wrapS 32 ((volume_index (-1) : Nat) : Int) = -1 := by
  refine ⟨rfl, rfl, rfl, rfl⟩

/-- C12 (code evaluated at the failing inputs): for v = -1 and v = -5 the
table index used by `audio_set_volume` is 4294967295 and 4294967291, outside
0..15, and no scalar is read from `volume_array`; for v in {0, 8, 15} the
scalar is 0, 8 and 128. -/
theorem C12_volume_table_index :
    volume_index (-1) = 4294967295 ∧ volume_index (-5) = 4294967291 ∧
    (audio_set_volume fresh (-1)).map (fun s => s.volume) = none ∧
    (audio_set_volume fresh (-5)).map (fun s => s.volume) = none ∧
    (audio_set_volume fresh 0).map (fun s => s.volume) = some 0 ∧
    (audio_set_volume fresh 8).map (fun s => s.volume) = some 8 ∧
    (audio_set_volume fresh 15).map (fun s => s.volume) = some 128 := by
  refine ⟨rfl, rfl, rfl, rfl, rfl, rfl, rfl⟩

/-! ## Claims C13 and C14: fade-out step -/

/-- C13: for every fade percentage p and every unsigned step,
`audio_fade_out_step(step)` sets the fade to p - step when step < p and to 0
when step ≥ p, returning 1 in the latter case; the fade percentage never
increases. -/
theorem C13_fade_out_step (s : State) (step_size : Nat) :
    (step_size < s.volume_fade_percent →
      (audio_fade_out_step s step_size).2.volume_fade_percent =
        s.volume_fade_percent - step_size) ∧
    (s.volume_fade_percent ≤ step_size →
      (audio_fade_out_step s step_size).2.volume_fade_percent = 0 ∧
      (audio_fade_out_step s step_size).1 = 1) ∧
    (audio_fade_out_step s step_size).2.volume_fade_percent ≤ s.volume_fade_percent := by
  simp only [audio_fade_out_step]
  refine ⟨fun h => ?_, fun h => ?_, ?_⟩
  · rw [if_pos ⟨by omega, by omega⟩]
  · by_cases hc : 0 < s.volume_fade_percent ∧ s.volume_fade_percent ≥ step_size
    · rw [if_pos hc]
      have h0 : s.volume_fade_percent - step_size = 0 := by omega
      simp [h0]
    · rw [if_neg hc]
      simp
  · split_ifs <;> simp

/-- C14: for every state and every step, `audio_fade_out_step(step)` returns 1
exactly when the fade percentage after the call is 0, and returns 0
otherwise. -/
theorem C14_fade_out_step_result (s : State) (step_size : Nat) :
    ((audio_fade_out_step s step_size).1 = 1 ↔
      (audio_fade_out_step s step_size).2.volume_fade_percent = 0) ∧
    ((audio_fade_out_step s step_size).1 = 0 ↔
      (audio_fade_out_step s step_size).2.volume_fade_percent ≠ 0) := by
  simp only [audio_fade_out_step]
  constructor <;> split_ifs <;> simp_all

/-- Example for C13: from the initial fade of 100 a step of 30 leaves 70 and
returns 0; a further step of 80 leaves 0 and returns 1. -/
theorem C13_fade_out_step_witness :
    fresh.volume_fade_percent = 100 ∧
    (audio_fade_out_step fresh 30).2.volume_fade_percent = 100 - 30 ∧
    (audio_fade_out_step fresh 30).1 = 0 ∧
    ((audio_fade_out_step (audio_fade_out_step fresh 30).2 80).2.volume_fade_percent = 0 ∧
      (audio_fade_out_step (audio_fade_out_step fresh 30).2 80).1 = 1) :=
  ⟨rfl, (C13_fade_out_step fresh 30).1 (by decide), rfl,
    (C13_fade_out_step (audio_fade_out_step fresh 30).2 80).2.1 (by decide)⟩

/-- Example for C14: at fade 100 a step of 100 returns 1 with the fade at 0,
a step of 99 returns 0 with the fade at 1. -/
theorem C14_fade_out_step_result_witness :
    (audio_fade_out_step fresh 100).1 = 1 ∧
    (audio_fade_out_step fresh 100).2.volume_fade_percent = 0 ∧
    (audio_fade_out_step fresh 99).1 = 0 ∧
    (audio_fade_out_step fresh 99).2.volume_fade_percent = 1 :=
  ⟨(C14_fade_out_step_result fresh 100).1.2 rfl, rfl,
    (C14_fade_out_step_result fresh 99).2.2 (by decide), rfl⟩

/-! ## Pause and the published amplitudes: lemmas -/

/-- After `audio_device_close` the session is closed. -/
theorem audio_device_close_closed (s : State) : (audio_device_close s).device_open = 0 := by
  simp only [audio_device_close]
  split_ifs with h
  · rfl
  · exact not_not.mp h

/-- C16: for every state, `audio_device_close` followed by
`audio_device_close` yields the same state (every variable, and the same
record of SDL calls) as a single `audio_device_close`; on an already closed
session `audio_device_close` changes nothing. -/
theorem C16_close_idempotent (s : State) :
    audio_device_close (audio_device_close s) = audio_device_close s ∧
    (s.device_open = 0 → audio_device_close s = s) := by
  have hnoop : ∀ t : State, t.device_open = 0 → audio_device_close t = t := by
    intro t ht
    simp [audio_device_close, ht]
  exact ⟨hnoop _ (audio_device_close_closed s), hnoop s⟩

/-- Example for C16: closing the playing session with published magnitudes
pauses, clears the magnitudes, closes the device; a second close adds
nothing. -/
theorem C16_close_idempotent_witness :
    ((audio_device_close playing_with_levels).device_open,
      (audio_device_close playing_with_levels).paused,
      (audio_device_close playing_with_levels).sdl) =
        (0, 1, [SdlCall.PauseAudio 1, SdlCall.CloseAudio]) ∧
    audio_device_close (audio_device_close playing_with_levels) =
      audio_device_close playing_with_levels :=
  ⟨rfl, (C16_close_idempotent playing_with_levels).1⟩

/-! ## Claims C17 and C18: the ring buffer -/

/-- A write larger than the free space is rejected and leaves the buffer as
it was. -/
theorem ringbuffer_write_rejected (rb : RingBuffer) (src : Nat → Nat) (n : Nat)
    (h : ringbuffer_get_free rb < n) : ringbuffer_write rb src n = (0, rb) := by
  simp only [ringbuffer_write, gt_iff_lt, h, if_true]

/-- C17: for every buffer state and every n greater than the free space,
`audio_fill_buffer(data, n)` returns 0 and leaves the ring buffer (capacity,
fill and contents) unchanged; when n ≤ free (and the audio lock is acquired)
it returns 1 and the fill grows by exactly n. -/
theorem C17_fill_buffer (p_audio : Bool) (s : State) (data : Nat → Nat) (n : Nat) :
    (ringbuffer_get_free s.audio_rb < n →
      (audio_fill_buffer p_audio s data n).1 = 0 ∧
      (audio_fill_buffer p_audio s data n).2.audio_rb = s.audio_rb) ∧
    (n ≤ ringbuffer_get_free s.audio_rb →
      (audio_fill_buffer true s data n).1 = 1 ∧
      ringbuffer_get_fill (audio_fill_buffer true s data n).2.audio_rb =
        ringbuffer_get_fill s.audio_rb + n) := by
  constructor
  · intro h
    cases p_audio
    · exact ⟨rfl, rfl⟩
    · simp [audio_fill_buffer, ringbuffer_write_rejected s.audio_rb data n h]
  · intro h
    refine ⟨?_, audio_fill_buffer_fill s data n h⟩
    have h' : ¬ n > ringbuffer_get_free s.audio_rb := Nat.not_lt.mpr h
    simp only [audio_fill_buffer, if_true, ringbuffer_write, h', if_false]

/-- Example for C17: with 8 bytes queued in the buffer of 131072 bytes, a
write of 131065 bytes is rejected and a write of 131064 bytes fills the
buffer. -/
theorem C17_fill_buffer_witness :
    ringbuffer_get_free queued_8.audio_rb = 131064 ∧
    ((audio_fill_buffer true queued_8 (fun _ => 0) 131065).1 = 0 ∧
      (audio_fill_buffer true queued_8 (fun _ => 0) 131065).2.audio_rb = queued_8.audio_rb) ∧
    ((audio_fill_buffer true queued_8 (fun _ => 0) 131064).1 = 1 ∧
      ringbuffer_get_fill (audio_fill_buffer true queued_8 (fun _ => 0) 131064).2.audio_rb =
        ringbuffer_get_fill queued_8.audio_rb + 131064) :=
  ⟨rfl, (C17_fill_buffer true queued_8 (fun _ => 0) 131065).1 (by decide),
    (C17_fill_buffer true queued_8 (fun _ => 0) 131064).2 (by decide)⟩

/-- One ring buffer operation keeps the capacity and keeps the fill within
the capacity. -/
theorem rb_step_inv (rb : RingBuffer) (op : RbOp)
    (h : ringbuffer_get_fill rb ≤ ringbuffer_get_size rb) :
    ringbuffer_get_size (rb_step rb op) = ringbuffer_get_size rb ∧
    ringbuffer_get_fill (rb_step rb op) ≤ ringbuffer_get_size (rb_step rb op) := by
  simp only [ringbuffer_get_fill, ringbuffer_get_size] at h
  cases op with
  | write src n =>
    simp only [rb_step, ringbuffer_write, ringbuffer_get_free]
    split_ifs with hn
    · exact ⟨rfl, h⟩
    · simp only [ringbuffer_get_size, ringbuffer_get_fill, List.length_append, List.length_map,
        List.length_range]
      exact ⟨trivial, by omega⟩
  | read n =>
    simp only [rb_step, ringbuffer_read]
    split_ifs with hn
    · exact ⟨rfl, h⟩
    · simp only [ringbuffer_get_size, ringbuffer_get_fill, List.length_drop]
      exact ⟨trivial, by omega⟩
  | drain =>
    simp only [rb_step, ringbuffer_read]
    split_ifs with hn
    · exact ⟨rfl, h⟩
    · simp only [ringbuffer_get_size, ringbuffer_get_fill, List.length_drop]
      exact ⟨trivial, by omega⟩
  | clear =>
    simp only [rb_step, ringbuffer_clear, ringbuffer_get_size, ringbuffer_get_fill,
      List.length_nil]
    exact ⟨trivial, Nat.zero_le _⟩

/-- Every buffer visited by a sequence of ring buffer operations has the
capacity of the start and a fill within it. -/
theorem rb_trajectory_inv (ops : List RbOp) :
    ∀ rb0 : RingBuffer, ringbuffer_get_fill rb0 ≤ ringbuffer_get_size rb0 →
      ∀ rb ∈ rb_trajectory rb0 ops,
        ringbuffer_get_size rb = ringbuffer_get_size rb0 ∧
        ringbuffer_get_fill rb ≤ ringbuffer_get_size rb := by
  induction ops with
  | nil => intro rb0 _ rb hrb; simp [rb_trajectory] at hrb
  | cons op ops ih =>
    intro rb0 h0 rb hrb
    obtain ⟨hs, hf⟩ := rb_step_inv rb0 op h0
    simp only [rb_trajectory, List.mem_cons] at hrb
    rcases hrb with rfl | hrb
    · exact ⟨hs, hf⟩
    · obtain ⟨h1, h2⟩ := ih (rb_step rb0 op) hf rb hrb
      exact ⟨h1.trans hs, h2⟩

/-- C18: for every sequence of ring buffer writes, full reads, drains and
clears starting from the freshly initialised buffer of capacity 131072, every
buffer on the way (the start included) has capacity 131072,
0 ≤ fill ≤ capacity and fill + free = capacity. -/
theorem C18_ring_buffer_invariant (ops : List RbOp) (rb : RingBuffer)
    (hrb : rb ∈ ringbuffer_init RINGBUFFER_SIZE ::
      rb_trajectory (ringbuffer_init RINGBUFFER_SIZE) ops) :
    ringbuffer_get_size rb = 131072 ∧
    0 ≤ ringbuffer_get_fill rb ∧
    ringbuffer_get_fill rb ≤ ringbuffer_get_size rb ∧
    ringbuffer_get_fill rb + ringbuffer_get_free rb = ringbuffer_get_size rb := by
  have h0 : ringbuffer_get_fill (ringbuffer_init RINGBUFFER_SIZE) ≤
      ringbuffer_get_size (ringbuffer_init RINGBUFFER_SIZE) := Nat.zero_le _
  have key : ringbuffer_get_size rb = 131072 ∧
      ringbuffer_get_fill rb ≤ ringbuffer_get_size rb := by
    rcases List.mem_cons.mp hrb with rfl | h
    · exact ⟨rfl, h0⟩
    · obtain ⟨h1, h2⟩ := rb_trajectory_inv ops _ h0 rb h
      exact ⟨h1.trans rfl, h2⟩
  refine ⟨key.1, Nat.zero_le _, key.2, ?_⟩
  have := key.2
  simp only [ringbuffer_get_fill, ringbuffer_get_free, ringbuffer_get_size] at this ⊢
  omega

/-- Witness for C18: along `rb_ops_example` the fills are 8, 8, 5, 5, 0, 4, 0
and the free space is the rest of 131072; the statement is applied to the
buffer after the first write. -/
theorem C18_ring_buffer_invariant_witness :
    (rb_trajectory (ringbuffer_init RINGBUFFER_SIZE) rb_ops_example).map
        (fun rb => (ringbuffer_get_fill rb, ringbuffer_get_free rb)) =
      [(8, 131064), (8, 131064), (5, 131067), (5, 131067), (0, 131072), (4, 131068),
       (0, 131072)] ∧
    (ringbuffer_get_size (rb_step (ringbuffer_init RINGBUFFER_SIZE) (RbOp.write (fun i => i) 8))
        = 131072 ∧
      0 ≤ ringbuffer_get_fill
        (rb_step (ringbuffer_init RINGBUFFER_SIZE) (RbOp.write (fun i => i) 8)) ∧
      ringbuffer_get_fill (rb_step (ringbuffer_init RINGBUFFER_SIZE) (RbOp.write (fun i => i) 8))
        ≤ ringbuffer_get_size
          (rb_step (ringbuffer_init RINGBUFFER_SIZE) (RbOp.write (fun i => i) 8)) ∧
      ringbuffer_get_fill (rb_step (ringbuffer_init RINGBUFFER_SIZE) (RbOp.write (fun i => i) 8))
        + ringbuffer_get_free
          (rb_step (ringbuffer_init RINGBUFFER_SIZE) (RbOp.write (fun i => i) 8))
        = ringbuffer_get_size
          (rb_step (ringbuffer_init RINGBUFFER_SIZE) (RbOp.write (fun i => i) 8))) :=
  ⟨rfl, C18_ring_buffer_invariant rb_ops_example _
    (List.mem_cons_of_mem _ (List.mem_cons_self _ _))⟩

/-! ## Volume range and mix scale: lemmas -/

/-- Every entry of `volume_array` lies in 0..128. -/
theorem volume_array_range : ∀ v ∈ volume_array, 0 ≤ v ∧ v ≤ 128 := by decide

/-- A successful `audio_set_volume` leaves a device scalar of at most 128 and
does not touch the fade. -/
theorem audio_set_volume_range (s s' : State) (vol : Int)
    (h : audio_set_volume s vol = some s') :
    s'.volume ≤ 128 ∧ s'.volume_fade_percent = s.volume_fade_percent := by
  simp only [audio_set_volume] at h
  split at h
  · rename_i v hv
    obtain ⟨h0, h1⟩ := volume_array_range v (List.getElem?_mem hv)
    simp only [Option.some.injEq] at h
    subst h
    refine ⟨?_, rfl⟩
    show wrapU 32 v ≤ 128
    rw [wrapU_of_nonneg 32 v h0 (by omega)]
    omega
  · exact absurd h (by simp)

/-- The volume and fade operations keep the device scalar within 0..128 and
the fade within 0..100. -/
theorem volume_step_range (s s' : State) (op : VolumeOp)
    (hv : s.volume ≤ 128) (hf : s.volume_fade_percent ≤ 100)
    (h : volume_step s op = some s') :
    s'.volume ≤ 128 ∧ s'.volume_fade_percent ≤ 100 := by
  cases op with
  | set_volume vol =>
    obtain ⟨h1, h2⟩ := audio_set_volume_range s s' vol h
    exact ⟨h1, h2 ▸ hf⟩
  | set_fade_volume percent =>
    simp only [volume_step, Option.some.injEq] at h
    subst h
    simp only [audio_set_fade_volume]
    split_ifs with hp
    · refine ⟨hv, ?_⟩
      show wrapU 32 percent ≤ 100
      rw [wrapU_of_nonneg 32 percent hp.1 (by omega)]
      omega
    · exact ⟨hv, hf⟩
  | fade_out_step step_size =>
    simp only [volume_step, Option.some.injEq] at h
    subst h
    simp only [audio_fade_out_step]
    split_ifs
    · exact ⟨hv, by show s.volume_fade_percent - step_size ≤ 100; omega⟩
    · exact ⟨hv, Nat.zero_le _⟩
  | reset_fade_volume =>
    simp only [volume_step, Option.some.injEq] at h
    subst h
    exact ⟨hv, Nat.le_refl _⟩

/-- The low-water part, when it returns, does not touch the volume, the fade,
the scratch buffer or the subscriber count. -/
theorem low_water_volume (P : Platform) (e : FillEnv) (fuel : Nat) (s t : State)
    (h : low_water P e fuel s = some t) :
    t.volume = s.volume ∧ t.volume_fade_percent = s.volume_fade_percent ∧
    t.buf = s.buf ∧ t.spectrum_reg = s.spectrum_reg := by
  have hpause : ∀ u : State, (audio_set_pause u 1).2.volume = u.volume ∧
      (audio_set_pause u 1).2.volume_fade_percent = u.volume_fade_percent ∧
      (audio_set_pause u 1).2.buf = u.buf ∧
      (audio_set_pause u 1).2.spectrum_reg = u.spectrum_reg := by
    intro u
    simp only [audio_set_pause]
    split_ifs <;> exact ⟨rfl, rfl, rfl, rfl⟩
  simp only [low_water, underrun_policy] at h
  split_ifs at h
  all_goals first
    | (simp only [Option.some.injEq] at h; subst h; exact ⟨rfl, rfl, rfl, rfl⟩)
    | (simp only [Option.some.injEq] at h; subst h
       have h2 := hpause
         { s with sdl := s.sdl ++ [SdlCall.CondSignal] ++ [SdlCall.PauseAudio 1] }
       exact h2)
    | (simp only [Option.some.injEq] at h; subst h
       have h2 := hpause { s with sdl := s.sdl ++ [SdlCall.PauseAudio 1] }
       exact h2)

/-- A list of zeros yields 0 at every index. -/
theorem getD_of_all_zero (l : List Nat) (h : ∀ b ∈ l, b = 0) (i : Nat) : l.getD i 0 = 0 := by
  rw [List.getD_eq_getElem?_getD]
  cases hi : l[i]? with
  | none => rfl
  | some b => exact h b (List.getElem?_mem hi)

/-- When a zero sample leaves a zero accumulator at zero, every bin of a zero
signal is zero before scaling. -/
theorem dft_bin_zero (step : Int → Int → Nat → Nat → Nat → Int)
    (hstep : ∀ j i n, step 0 0 j i n = 0) (input_signal : List Int)
    (hin : ∀ i, input_signal.getD i 0 = 0) (n j : Nat) :
    dft_bin step input_signal n j = 0 := by
  have key : ∀ l : List Nat,
      l.foldl (fun acc i => step acc (input_signal.getD i 0) j i n) 0 = 0 := by
    intro l
    induction l with
    | nil => rfl
    | cons a l ih =>
      simp only [List.foldl_cons, hin a, hstep j a n]
      exact ih
  exact key _

/-- The DFT of the all-zero 16-sample signal has nine zero real and nine zero
imaginary bins. -/
theorem calculate_dft_zero (P : Platform)
    (hrex : ∀ j i n, P.rex_step 0 0 j i n = 0) (himx : ∀ j i n, P.imx_step 0 0 j i n = 0) :
    calculate_dft P (List.replicate 16 0) 16 = (List.replicate 9 0, List.replicate 9 0) := by
  have hin : ∀ i, (List.replicate 16 (0 : Int)).getD i 0 = 0 := by
    intro i
    rw [List.getD_eq_getElem?_getD]
    cases hi : (List.replicate 16 (0 : Int))[i]? with
    | none => rfl
    | some b => exact List.eq_of_mem_replicate (List.getElem?_mem hi)
  simp only [calculate_dft, dft_bin_zero P.rex_step hrex _ hin, dft_bin_zero P.imx_step himx _ hin]
  rfl

/-- A zero byte is a zero `char`, signed or not. -/
theorem char_value_zero (P : Platform) : char_value P 0 = 0 := by
  simp only [char_value]
  split_ifs <;> decide

/-- With a positive channel count and a zero scratch buffer the extracted
samples are all zero. -/
theorem samples_l_zero (P : Platform) (g : Nat → Int) (s : State)
    (hch : 0 < s.have_channels) (hbuf : ∀ i, s.buf i = 0) :
    samples_l P g s = List.replicate 16 0 := by
  have hw : wrapS 16 0 = 0 := by decide
  simp only [samples_l, hch, if_true, hbuf, char_value_zero, zero_mul, add_zero, hw]
  rfl

/-- The read step leaves a zero scratch buffer when the scratch buffer and the
queued bytes are zero. -/
theorem read_block_buf_zero (P : Platform) (e : FillEnv) (s : State) (len : Nat)
    (hdata : ∀ b ∈ s.audio_rb.data, b = 0) (hbuf : ∀ i, s.buf i = 0) :
    ∀ i, (read_block P e s len).buf i = 0 := by
  have htake : ∀ n i, (s.audio_rb.data.take n).getD i 0 = 0 := fun n i =>
    getD_of_all_zero _ (fun b hb => hdata b (List.mem_of_mem_take hb)) i
  intro i
  simp only [read_block, ringbuffer_read]
  split_ifs <;> simp only [htake, hbuf, ite_self, List.getD_nil]

/-- The read step does not touch the subscriber count. -/
theorem read_block_spectrum_reg (P : Platform) (e : FillEnv) (s : State) (len : Nat) :
    (read_block P e s len).spectrum_reg = s.spectrum_reg := by
  simp only [read_block]
  split_ifs <;> rfl

/-- With a subscriber, a positive channel count and a zero scratch buffer the
visualization tap publishes eight zero magnitudes. -/
theorem spectrum_tap_zero (P : Platform) (g : Nat → Int) (s : State)
    (himx : ∀ j i n, P.imx_step 0 0 j i n = 0) (hrex : ∀ j i n, P.rex_step 0 0 j i n = 0)
    (hreg : 0 < s.spectrum_reg) (hch : 0 < s.have_channels) (hbuf : ∀ i, s.buf i = 0) :
    (spectrum_tap P g s).amplitudes.take 8 = List.replicate 8 0 := by
  simp only [spectrum_tap, hreg, if_true, samples_l_zero P g s hch hbuf,
    calculate_dft_zero P hrex himx]
  rfl

/-- C20: for the all-zero 16-sample input the DFT yields reX[j] = 0 and
imX[j] = 0 for every bin j in 0..8 (given that a zero sample added to a zero
accumulator leaves zero, which is what `0 * fcos(..)` and `0 * fsin(..)`
amount to).  A callback that returns, with a subscriber registered and a
positive channel count, over a zero-valued block (scratch buffer and queued
bytes zero) publishes eight zero magnitudes. -/
theorem C20_dft_zero_block (P : Platform) (e : FillEnv) (fuel : Nat) (s : State) (len : Nat)
    (hrex : ∀ j i n, P.rex_step 0 0 j i n = 0) (himx : ∀ j i n, P.imx_step 0 0 j i n = 0)
    (hreg : 0 < s.spectrum_reg) (hch : 0 < s.have_channels)
    (hdata : ∀ b ∈ s.audio_rb.data, b = 0) (hbuf : ∀ i, s.buf i = 0)
    (hwait : enters_wait P e s = false) :
    calculate_dft P (List.replicate 16 0) 16 = (List.replicate 9 0, List.replicate 9 0) ∧
    ∃ t, fill_audio P e fuel s len = some t ∧ t.amplitudes.take 8 = List.replicate 8 0 := by
  refine ⟨calculate_dft_zero P hrex himx, ?_⟩
  obtain ⟨u, hu⟩ := low_water_returns P e fuel s hwait
  obtain ⟨urb, -⟩ := low_water_frame P e fuel s u hu
  obtain ⟨-, uch⟩ := low_water_session P e fuel s u hu
  obtain ⟨-, -, ubuf, ureg⟩ := low_water_volume P e fuel s u hu
  have rbuf := read_block_buf_zero P e u len (by rw [urb]; exact hdata)
    (by rw [ubuf]; exact hbuf)
  have rreg : 0 < (read_block P e u len).spectrum_reg := by
    rw [read_block_spectrum_reg, ureg]; exact hreg
  have rch : 0 < (read_block P e u len).have_channels := by
    rw [(read_block_frame P e u len).2.2.2.2.2, uch]; exact hch
  refine ⟨mix_audio (spectrum_tap P e.garbage (read_block P e u len)) len, ?_, ?_⟩
  · simp only [fill_audio, hu, Option.map_some']
  · exact spectrum_tap_zero P e.garbage (read_block P e u len) himx hrex rreg rch rbuf

/-- Witness for C20: the platform with integer trigonometry, an open stereo
session with a subscriber and 64 zero bytes queued, a callback of 64 bytes. -/
theorem C20_dft_zero_block_witness :
    calculate_dft fixed_point_platform (List.replicate 16 0) 16 =
      (List.replicate 9 0, List.replicate 9 0) ∧
    ∃ t, fill_audio fixed_point_platform fill_ok 0 zero_block_pre 64 = some t ∧
      t.amplitudes.take 8 = List.replicate 8 0 :=
  C20_dft_zero_block fixed_point_platform fill_ok 0 zero_block_pre 64
    (fun j i n => by simp [fixed_point_platform, wrapS])
    (fun j i n => by simp [fixed_point_platform, wrapS])
    (by decide) (by decide) (by decide) (fun _ => rfl) rfl

/-! ## Claims C21 and C22: fade in progress and fade reset -/

/-- C21: `audio_fade_out_in_progress` returns 1 if and only if the current
fade percentage satisfies 0 < fade < 100, and 0 otherwise; it is a function
of the state alone and returns no new state, so the fade is unchanged. -/
theorem C21_fade_out_in_progress (s : State) :
    (audio_fade_out_in_progress s = 1 ↔
      0 < s.volume_fade_percent ∧ s.volume_fade_percent < 100) ∧
    (audio_fade_out_in_progress s = 0 ↔
      ¬ (0 < s.volume_fade_percent ∧ s.volume_fade_percent < 100)) := by
  simp only [audio_fade_out_in_progress]
  constructor <;> split_ifs with h <;> simp_all <;> omega

/-- Example for C21: in progress at fade 70, not at 100 and not at 0. -/
theorem C21_fade_out_in_progress_witness :
    audio_fade_out_in_progress (audio_fade_out_step fresh 30).2 = 1 ∧
    audio_fade_out_in_progress fresh = 0 ∧
    audio_fade_out_in_progress (audio_fade_out_step fresh 100).2 = 0 :=
  ⟨(C21_fade_out_in_progress (audio_fade_out_step fresh 30).2).1.2 (by decide), rfl, rfl⟩

/-- C22: for every state and every finite sequence of `audio_fade_out_step`
calls with arbitrary step sizes, a following `audio_reset_fade_volume` leaves
the fade percentage equal to 100, and `audio_fade_out_in_progress` returns
0. -/
theorem C22_reset_after_fade_steps (s : State) (steps : List Nat) :
    (audio_reset_fade_volume
      (steps.foldl (fun t step_size => (audio_fade_out_step t step_size).2) s)
      ).volume_fade_percent = 100 ∧
    audio_fade_out_in_progress (audio_reset_fade_volume
      (steps.foldl (fun t step_size => (audio_fade_out_step t step_size).2) s)) = 0 := by
  constructor
  · rfl
  · simp [audio_fade_out_in_progress, audio_reset_fade_volume]

/-- Example for C22: steps of 30, 30 and 50 bring the fade from 100 to 0; the
reset brings it back to 100. -/
theorem C22_reset_after_fade_steps_witness :
    ([30, 30, 50].foldl (fun t step_size => (audio_fade_out_step t step_size).2)
      fresh).volume_fade_percent = 0 ∧
    (audio_reset_fade_volume
      ([30, 30, 50].foldl (fun t step_size => (audio_fade_out_step t step_size).2) fresh)
      ).volume_fade_percent = 100 :=
  ⟨rfl, (C22_reset_after_fade_steps fresh [30, 30, 50]).1⟩

/-! ## Claim C23: lock acquisition failure -/

/-- C23: when `audio_mutex2` cannot be acquired, `audio_device_open` returns
-1 and returns the state as it was (byte counter, open flag, rate, channels,
done flag, ring buffer, event queue and SDL calls included);
`audio_get_playtime`, `audio_get_sample_count`, `audio_set_sample_counter` and
`audio_increase_sample_counter` return 0 with the state as it was; and when
`audio_mutex` cannot be acquired `audio_fill_buffer` returns 0 with the state
as it was. -/
theorem C23_lock_failure (P : Platform) (e : OpenEnv) (s : State)
    (samplerate channels sample : Int) (data : Nat → Nat) (size : Nat)
    (hlock : e.p_audio2 = false) :
    audio_device_open e s samplerate channels = (-1, s) ∧
    audio_get_playtime P false s = some (0, s) ∧
    audio_get_sample_count P false s = some (0, s) ∧
    audio_set_sample_counter P false s sample = (0, s) ∧
    audio_increase_sample_counter P false s sample = (0, s) ∧
    audio_fill_buffer false s data size = (0, s) := by
  refine ⟨?_, rfl, rfl, rfl, rfl, rfl⟩
  simp [audio_device_open, hlock]

/-- Witness for C23: the reopen scenario (open at 44100 Hz stereo, 4096
bytes queued) with the lock refused on an open at 48000 Hz. -/
theorem C23_lock_failure_witness :
    audio_device_open lock_refused reopen_pre 48000 2 = (-1, reopen_pre) ∧
    audio_get_playtime example_platform false reopen_pre = some (0, reopen_pre) ∧
    audio_get_sample_count example_platform false reopen_pre = some (0, reopen_pre) ∧
    audio_set_sample_counter example_platform false reopen_pre 88200 = (0, reopen_pre) ∧
    audio_increase_sample_counter example_platform false reopen_pre 88200 = (0, reopen_pre) ∧
    audio_fill_buffer false reopen_pre (fun _ => 0) 16 = (0, reopen_pre) :=
  C23_lock_failure example_platform lock_refused reopen_pre 48000 2 88200 (fun _ => 0) 16 rfl

/-! ## Claim C24: the samples handed to the DFT -/

/-- Entry `j` of a mapped range. -/
theorem getD_map_range (f : Nat → Int) (n j : Nat) (h : j < n) :
    ((List.range n).map f).getD j 0 = f j := by
  rw [List.getD_eq_getElem?_getD, List.getElem?_map, List.getElem?_range h]
  rfl

/-- Where plain `char` is unsigned, sample `j` of the visualization tap is the
signed 16-bit little-endian value of the two bytes at offset j·2·C of the
scratch buffer. -/
theorem samples_l_unsigned_char (P : Platform) (g : Nat → Int) (s : State) (j : Nat)
    (hchar : P.char_signed = false) (hch : 0 < s.have_channels) (hj : j < 16) :
    (samples_l P g s).getD j 0 =
      le_s16 (s.buf (j * (2 * s.have_channels).toNat))
        (s.buf (j * (2 * s.have_channels).toNat + 1)) := by
  simp only [samples_l]
  rw [getD_map_range _ 16 j hj]
  simp only [hch, if_true, char_value, hchar, le_s16]
  push_cast
  rfl

/-- C24 (code evaluated at the failing input): the scratch buffer starts with
the bytes 0x80, 0x00, whose signed 16-bit little-endian value is 128.  Where
plain `char` is signed, `(buf[i+1] << 8) + buf[i]` sign-extends the low byte
and sample 0 is -128; where `char` is unsigned it is 128. -/
theorem C24_low_byte_sign_extended :
    low_byte_128.have_channels = 2 ∧
    le_s16 (low_byte_128.buf 0) (low_byte_128.buf 1) = 128 ∧
    example_platform.char_signed = true ∧
    (samples_l example_platform (fun _ => 0) low_byte_128).getD 0 0 = -128 ∧
    fixed_point_platform.char_signed = false ∧
    (samples_l fixed_point_platform (fun _ => 0) low_byte_128).getD 0 0 = 128 := by
  refine ⟨rfl, rfl, rfl, rfl, rfl, rfl⟩

/-! ## Claim C25: the published magnitudes -/

/-- The absolute value as `fill_audio` writes it. -/
theorem abs_as_written (v : Int) : (if v < 0 then -v else v) = |v| := by
  split_ifs with h
  · exact (abs_of_neg h).symm
  · exact (abs_of_nonneg (not_lt.mp h)).symm

/-- The read step does not touch the published amplitudes. -/
theorem read_block_amplitudes (P : Platform) (e : FillEnv) (s : State) (len : Nat) :
    (read_block P e s len).amplitudes = s.amplitudes := by
  simp only [read_block]
  split_ifs <;> rfl

/-- The low-water part leaves the published amplitudes as they were unless it
changes the pause flag. -/
theorem low_water_amplitudes (P : Platform) (e : FillEnv) (fuel : Nat) (s u : State)
    (h : low_water P e fuel s = some u) (hp : u.paused = s.paused) :
    u.amplitudes = s.amplitudes := by
  have hpause : ∀ v : State, (audio_set_pause v 1).2.paused = v.paused →
      (audio_set_pause v 1).2.amplitudes = v.amplitudes := by
    intro v hv
    by_cases h1 : v.device_open ≠ 0
    · by_cases h2 : v.paused ≠ 1
      · have hv2 : (audio_set_pause v 1).2.paused = 1 := by simp [audio_set_pause, h1, h2]
        rw [hv2] at hv
        exact absurd hv.symm h2
      · simp [audio_set_pause, h1, h2]
    · simp [audio_set_pause, h1]
  simp only [low_water, underrun_policy] at h
  split_ifs at h
  all_goals first
    | (simp only [Option.some.injEq] at h; subst h; rfl)
    | (simp only [Option.some.injEq] at h; subst h
       exact hpause
         { s with sdl := s.sdl ++ [SdlCall.CondSignal] ++ [SdlCall.PauseAudio 1] } hp)
    | (simp only [Option.some.injEq] at h; subst h
       exact hpause { s with sdl := s.sdl ++ [SdlCall.PauseAudio 1] } hp)

set_option maxRecDepth 100000 in
/-- C25 (as stated, refuted): init, open(44100, 2), resume, register, write
`square_block`, one callback (it publishes 2688, 0, 768, 0, 256, 0, 128, 0),
unregister, set-done.  The subscriber count is now 0, the session is open and
playing, the buffer is empty.  The next callback pauses the session, and
`audio_set_pause(1)` clears all 16 amplitudes: they are not left unchanged. -/
theorem C25_counterexample :
    unsubscribed_pre.map (fun s => (s.spectrum_reg, s.device_open, s.paused, s.done,
        ringbuffer_get_fill s.audio_rb, s.amplitudes)) =
      some (0, 1, 0, 1, 0, [2688, 0, 768, 0, 256, 0, 128, 0, 0, 0, 0, 0, 0, 0, 0, 0]) ∧
    unsubscribed_pre.bind (fun s =>
        (fill_audio fixed_point_platform fill_ok 0 s 64).map (fun t => (t.paused, t.amplitudes))) =
      some (1, [0, 0, 0, 0, 0, 0, 0, 0, 0, 0, 0, 0, 0, 0, 0, 0]) := by
  constructor <;> rfl

/-- C25 (amended): when the subscriber count is > 0, after a callback that
returns, amplitudes[k] for k in 0..7 is |imX[k+1]| stored as `int16_t`, where
imX is the DFT of the 16 extracted samples; it equals |imX[k+1]|, and is
non-negative, whenever |imX[k+1]| ≤ 32767.  Bin 0 is not published, and
amplitudes[8..15] are unchanged unless the callback changes the pause flag.
When the subscriber count is 0 the callback leaves all 16 amplitudes
unchanged unless it changes the pause flag (it pauses on an empty buffer with
the done flag set, which clears them). -/
theorem C25_published_magnitudes (P : Platform) (e : FillEnv) (fuel : Nat) (s t : State)
    (len : Nat) (x : List Int)
    (hcb : fill_audio P e fuel s len = some t)
    (hx : callback_samples P e fuel s len = some x) :
    (0 < s.spectrum_reg →
      (∀ k, k < 8 → t.amplitudes.getD k 0 =
        wrapS 16 |(calculate_dft P x 16).2.getD (k + 1) 0|) ∧
      (∀ k, k < 8 → |(calculate_dft P x 16).2.getD (k + 1) 0| ≤ 32767 →
        t.amplitudes.getD k 0 = |(calculate_dft P x 16).2.getD (k + 1) 0| ∧
        0 ≤ t.amplitudes.getD k 0) ∧
      (t.paused = s.paused → t.amplitudes.drop 8 = s.amplitudes.drop 8)) ∧
    (s.spectrum_reg ≤ 0 → t.paused = s.paused → t.amplitudes = s.amplitudes) := by
  simp only [fill_audio, Option.map_eq_some'] at hcb
  obtain ⟨u, hu, rfl⟩ := hcb
  simp only [callback_samples, hu, Option.map_some', Option.some.injEq] at hx
  subst hx
  have hreg : (read_block P e u len).spectrum_reg = s.spectrum_reg := by
    rw [read_block_spectrum_reg, (low_water_volume P e fuel s u hu).2.2.2]
  have hpaused : (mix_audio (spectrum_tap P e.garbage (read_block P e u len)) len).paused
      = u.paused := (deliver_frame P e u len).1
  have hkeep : u.paused = s.paused → (read_block P e u len).amplitudes = s.amplitudes :=
    fun hp => (read_block_amplitudes P e u len).trans (low_water_amplitudes P e fuel s u hu hp)
  constructor
  · intro hpos
    have hval : ∀ k, k < 8 →
        (mix_audio (spectrum_tap P e.garbage (read_block P e u len)) len).amplitudes.getD k 0 =
          wrapS 16 |(calculate_dft P (samples_l P e.garbage (read_block P e u len)) 16).2.getD
            (k + 1) 0| := by
      intro k hk
      simp only [mix_audio, spectrum_tap, hreg, hpos, if_true]
      rw [List.getD_append _ _ _ _ (by simpa using hk), getD_map_range _ 8 k hk]
      simp only [abs_as_written]
    refine ⟨hval, ?_, ?_⟩
    · intro k hk hsmall
      rw [hval k hk, wrapS_of_nonneg 16 _ (by norm_num) (abs_nonneg _)
        (lt_of_le_of_lt hsmall (by norm_num))]
      exact ⟨rfl, abs_nonneg _⟩
    · intro hp
      rw [hpaused] at hp
      simp only [mix_audio, spectrum_tap, hreg, hpos, if_true]
      rw [List.drop_left' (by simp), hkeep hp]
  · intro hzero hp
    rw [hpaused] at hp
    have hnot : ¬ 0 < (read_block P e u len).spectrum_reg := by rw [hreg]; omega
    simp only [mix_audio, spectrum_tap, hnot, if_false]
    exact hkeep hp

set_option maxRecDepth 100000 in
/-- Witness for C25 (amended): the visualization scenario on the platform with
integer trigonometry; the samples are 512 in frames 0 to 7 and the published
magnitudes are 2688, 0, 768, 0, 256, 0, 128, 0. -/
theorem C25_published_magnitudes_witness :
    ∃ t x, fill_audio fixed_point_platform fill_ok 0 visual_pre 64 = some t ∧
      callback_samples fixed_point_platform fill_ok 0 visual_pre 64 = some x ∧
      x = [512, 512, 512, 512, 512, 512, 512, 512, 0, 0, 0, 0, 0, 0, 0, 0] ∧
      t.amplitudes = [2688, 0, 768, 0, 256, 0, 128, 0, 0, 0, 0, 0, 0, 0, 0, 0] ∧
      (∀ k, k < 8 → t.amplitudes.getD k 0 =
        wrapS 16 |(calculate_dft fixed_point_platform x 16).2.getD (k + 1) 0|) :=
  ⟨_, _, rfl, rfl, rfl, rfl,
    ((C25_published_magnitudes fixed_point_platform fill_ok 0 visual_pre _ 64 _ rfl rfl).1
      (by decide)).1⟩

/-! ## Claim C26: callback on an empty buffer with the done flag set -/

/-- On an open session with an empty buffer and the done flag set, the
low-water part returns for every fuel and leaves the pause flag at 1. -/
theorem low_water_empty_done_paused (P : Platform) (e : FillEnv) (fuel : Nat) (s : State)
    (hfill : ringbuffer_get_fill s.audio_rb = 0) (hmin : 0 < P.MIN_BUFFER_FILL)
    (hv : e.v_audio = true) (hp : e.p_audio2_done = true)
    (hopen : s.device_open ≠ 0) (hdone : s.done ≠ 0) :
    ∃ u, low_water P e fuel s = some u ∧ u.paused = 1 := by
  have h3 : ringbuffer_get_fill s.audio_rb < P.MIN_BUFFER_FILL * 3 := by omega
  have h1 : ringbuffer_get_fill s.audio_rb < P.MIN_BUFFER_FILL := by omega
  simp only [low_water, if_pos h3]
  rw [if_pos (show ringbuffer_get_fill s.audio_rb < P.MIN_BUFFER_FILL from h1),
    if_pos (show ringbuffer_get_fill s.audio_rb = 0 from hfill)]
  by_cases hpa : s.paused = 1
  · simp [underrun_policy, audio_set_pause, hv, hp, hopen, hdone, hpa]
  · simp [underrun_policy, audio_set_pause, hv, hp, hopen, hdone, hpa]

/-- On an empty buffer the read step leaves the buffer empty and the byte
counter as it was. -/
theorem read_block_empty (P : Platform) (e : FillEnv) (s : State) (len : Nat)
    (hfill : ringbuffer_get_fill s.audio_rb = 0)
    (hctr : s.buf_read_counter < 2 ^ P.ULONG_BITS) :
    (read_block P e s len).buf_read_counter = s.buf_read_counter ∧
    ringbuffer_get_fill (read_block P e s len).audio_rb = 0 := by
  have hle : ringbuffer_get_fill (read_block P e s len).audio_rb ≤
      ringbuffer_get_fill s.audio_rb := by
    simp only [read_block, ringbuffer_read, ringbuffer_get_fill]
    split_ifs <;> simp only [List.length_drop] <;> omega
  refine ⟨?_, by omega⟩
  cases hcnt : e.p_audio2_cnt
  · simp only [read_block, hcnt, Bool.false_eq_true, if_false]
    split_ifs <;> rfl
  · rcases Nat.eq_zero_or_pos len with h0 | hpos
    · rw [(read_block_full P e s len hcnt (by omega)).1, h0, Nat.add_zero,
        Nat.mod_eq_of_lt hctr]
    · rw [(read_block_short P e s len hcnt (by omega)).1, hfill, Nat.add_zero,
        Nat.mod_eq_of_lt hctr]

/-- C26: if the callback is invoked on an open session with ring buffer
fill 0 and the done flag set (mutex calls succeeding, `MIN_BUFFER_FILL`
positive, byte counter within `unsigned long`), it does not reach the wait
loop and returns, whatever the fuel, with the pause flag set to 1, the byte
counter unchanged and the ring buffer still empty. -/
theorem C26_empty_done_callback (P : Platform) (e : FillEnv) (fuel : Nat) (s : State)
    (len : Nat)
    (hopen : s.device_open ≠ 0) (hfill : ringbuffer_get_fill s.audio_rb = 0)
    (hdone : s.done ≠ 0) (hmin : 0 < P.MIN_BUFFER_FILL)
    (hv : e.v_audio = true) (hp : e.p_audio2_done = true)
    (hctr : s.buf_read_counter < 2 ^ P.ULONG_BITS) :
    enters_wait P e s = false ∧
    ∃ t, fill_audio P e fuel s len = some t ∧
      t.paused = 1 ∧
      t.buf_read_counter = s.buf_read_counter ∧
      ringbuffer_get_fill t.audio_rb = 0 := by
  constructor
  · simp [enters_wait, hp, hdone]
  · obtain ⟨u, hu, upaused⟩ := low_water_empty_done_paused P e fuel s hfill hmin hv hp hopen hdone
    obtain ⟨urb, uctr⟩ := low_water_frame P e fuel s u hu
    obtain ⟨m1, m2, -⟩ := tap_mix_frame P e.garbage (read_block P e u len) len
    obtain ⟨r1, r2⟩ := read_block_empty P e u len (by rw [urb]; exact hfill)
      (by rw [uctr]; exact hctr)
    refine ⟨mix_audio (spectrum_tap P e.garbage (read_block P e u len)) len, ?_, ?_, ?_, ?_⟩
    · simp only [fill_audio, hu, Option.map_some']
    · rw [(deliver_frame P e u len).1, upaused]
    · rw [m2, r1, uctr]
    · rw [m1, r2]

/-- Witness for C26: the playing session with the done flag set and an empty
buffer, a callback for 4096 bytes with no fuel for the wait loop. -/
theorem C26_empty_done_callback_witness :
    enters_wait example_platform fill_ok drained_with_levels = false ∧
    ∃ t, fill_audio example_platform fill_ok 0 drained_with_levels 4096 = some t ∧
      t.paused = 1 ∧
      t.buf_read_counter = drained_with_levels.buf_read_counter ∧
      ringbuffer_get_fill t.audio_rb = 0 :=
  C26_empty_done_callback example_platform fill_ok 0 drained_with_levels 4096
    (by decide) rfl (by decide) (by decide) rfl rfl (by decide)

/-! ## Claim C28: set-pause on an open and on a closed session -/

/-- C28: on an open session `audio_set_pause(p)` sets the pause flag to p and
returns p; on a closed session it changes nothing (pause flag and published
amplitudes included) and returns the current pause flag. -/
theorem C28_set_pause (s : State) (pause_state : Int) :
    (s.device_open ≠ 0 →
      (audio_set_pause s pause_state).2.paused = pause_state ∧
      (audio_set_pause s pause_state).1 = pause_state) ∧
    (s.device_open = 0 →
      (audio_set_pause s pause_state).2 = s ∧
      (audio_set_pause s pause_state).1 = s.paused) := by
  constructor
  · intro hopen
    by_cases hp : s.paused = pause_state
    · simp [audio_set_pause, hopen, hp]
    · simp only [audio_set_pause, hopen, ne_eq, not_false_eq_true, hp, if_true]
      split_ifs <;> exact ⟨rfl, rfl⟩
  · intro hclosed
    simp [audio_set_pause, hclosed]

/-- Example for C28: resuming the open session right after the open returns 0
with the flag at 0; on the closed initial session the flag stays 1. -/
theorem C28_set_pause_witness :
    ((audio_set_pause (audio_device_open open_ok fresh 44100 2).2 0).2.paused = 0 ∧
      (audio_set_pause (audio_device_open open_ok fresh 44100 2).2 0).1 = 0) ∧
    (fresh.paused = 1 ∧ (audio_set_pause fresh 0).2 = fresh ∧
      (audio_set_pause fresh 0).1 = fresh.paused) :=
  ⟨(C28_set_pause (audio_device_open open_ok fresh 44100 2).2 0).1 (by decide),
    rfl, (C28_set_pause fresh 0).2 rfl⟩

/-! ## Claim C27: the fade percentage stays within 0..100 -/

/-- The function `audio_device_close` does not touch the fade. -/
theorem audio_device_close_fade (s : State) :
    (audio_device_close s).volume_fade_percent = s.volume_fade_percent := by
  simp only [audio_device_close, audio_set_pause]
  split_ifs <;> rfl

/-- The function `audio_device_open` does not touch the fade. -/
theorem audio_device_open_fade (e : OpenEnv) (s : State) (samplerate channels : Int) :
    (audio_device_open e s samplerate channels).2.volume_fade_percent =
      s.volume_fade_percent := by
  have hc := audio_device_close_fade { s with buf_read_counter := 0 }
  simp only [audio_device_open]
  split_ifs <;> first | rfl | exact hc

/-- A callback that returns does not touch the fade. -/
theorem fill_audio_fade (P : Platform) (e : FillEnv) (fuel : Nat) (s t : State) (len : Nat)
    (h : fill_audio P e fuel s len = some t) :
    t.volume_fade_percent = s.volume_fade_percent := by
  simp only [fill_audio, Option.map_eq_some'] at h
  obtain ⟨u, hu, rfl⟩ := h
  rw [← (low_water_volume P e fuel s u hu).2.1,
    ← (read_block_frame P e u len).2.2.2.1,
    ← (spectrum_tap_frame P e.garbage (read_block P e u len)).2.2.2.1]
  rfl

/-- No session operation, callback or seek touches the fade. -/
theorem step_fade (P : Platform) (s s' : State) (op : Op) (h : step P s op = some s') :
    s'.volume_fade_percent = s.volume_fade_percent := by
  cases op with
  | device_open e sr ch =>
    simp only [step, Option.some.injEq] at h
    subst h
    exact audio_device_open_fade e s sr ch
  | device_close =>
    simp only [step, Option.some.injEq] at h
    subst h
    exact audio_device_close_fade s
  | set_pause p =>
    simp only [step, Option.some.injEq] at h
    subst h
    simp only [audio_set_pause]
    split_ifs <;> rfl
  | set_done p =>
    simp only [step, Option.some.injEq] at h
    subst h
    simp only [audio_set_done]
    split_ifs <;> rfl
  | fill_buffer p data size =>
    simp only [step, Option.some.injEq] at h
    subst h
    simp only [audio_fill_buffer]
    split_ifs <;> rfl
  | buffer_clear p =>
    simp only [step, Option.some.injEq] at h
    subst h
    simp only [audio_buffer_clear, audio_set_pause]
    split_ifs <;> rfl
  | callback e fuel len => exact fill_audio_fade P e fuel s s' len h
  | set_sample_counter p sample =>
    simp only [step, Option.some.injEq] at h
    subst h
    simp only [audio_set_sample_counter]
    split_ifs <;> rfl
  | increase_sample_counter p off =>
    simp only [step, Option.some.injEq] at h
    subst h
    simp only [audio_increase_sample_counter]
    split_ifs <;> rfl

/-- The function `audio_set_fade_volume` ignores an argument outside 0..100
and stores an argument inside. -/
theorem audio_set_fade_volume_spec (s : State) (percent : Int) :
    (percent < 0 ∨ 100 < percent → audio_set_fade_volume s percent = s) ∧
    (0 ≤ percent ∧ percent ≤ 100 →
      ((audio_set_fade_volume s percent).volume_fade_percent : Int) = percent) := by
  constructor
  · intro h
    have hn : ¬ (0 ≤ percent ∧ percent ≤ 100) := by omega
    simp only [audio_set_fade_volume, hn, if_false]
  · intro h
    simp only [audio_set_fade_volume, h, and_self, if_true]
    rw [wrapU_of_nonneg 32 percent h.1 (by omega)]
    exact Int.toNat_of_nonneg h.1

/-- Every public operation leads from a fade of at most 100 to a fade of at
most 100. -/
theorem public_step_fade_le (P : Platform) (s s' : State) (op : PublicOp)
    (hf : s.volume_fade_percent ≤ 100) (h : public_step P s op = some s') :
    s'.volume_fade_percent ≤ 100 := by
  cases op with
  | session op => rw [step_fade P s s' op h]; exact hf
  | volume op =>
    cases op with
    | set_volume vol =>
      rw [(audio_set_volume_range s s' vol h).2]; exact hf
    | set_fade_volume percent =>
      simp only [public_step, volume_step, Option.some.injEq] at h
      subst h
      by_cases hp : 0 ≤ percent ∧ percent ≤ 100
      · have := (audio_set_fade_volume_spec s percent).2 hp
        omega
      · rw [(audio_set_fade_volume_spec s percent).1 (by omega)]; exact hf
    | fade_out_step step_size =>
      simp only [public_step, volume_step, Option.some.injEq] at h
      subst h
      simp only [audio_fade_out_step]
      split_ifs
      · show s.volume_fade_percent - step_size ≤ 100
        omega
      · exact Nat.zero_le _
    | reset_fade_volume =>
      simp only [public_step, volume_step, Option.some.injEq] at h
      subst h
      exact Nat.le_refl _
  | spectrum op =>
    simp only [public_step, Option.some.injEq] at h
    subst h
    cases op with
    | register => exact hf
    | unregister =>
      simp only [spectrum_step, audio_spectrum_unregister]
      split_ifs <;> exact hf
  | buffer_init =>
    simp only [public_step, Option.some.injEq] at h
    subst h
    exact hf

/-- Every state reached by public operations from a state with a fade of at
most 100 has a fade of at most 100. -/
theorem run_public_ops_fade_le (P : Platform) (ops : List PublicOp) :
    ∀ s s' : State, s.volume_fade_percent ≤ 100 → run_public_ops P s ops = some s' →
      s'.volume_fade_percent ≤ 100 := by
  induction ops with
  | nil =>
    intro s s' hf h
    simp only [run_public_ops, Option.some.injEq] at h
    subst h
    exact hf
  | cons op ops ih =>
    intro s s' hf h
    simp only [run_public_ops] at h
    cases hstep : public_step P s op with
    | none => simp [hstep] at h
    | some s1 =>
      simp only [hstep] at h
      exact ih s1 s' (public_step_fade_le P s s1 op hf hstep) h

/-- C27: the fade percentage is always within 0..100.  It is 100 in the
initial state; every state reached from it by public operations has
0 ≤ fade ≤ 100; from such a state every public operation (set-fade-volume with
any integer, fade-out-step with any step, reset-fade-volume, set-volume, the
session operations, the callback, the seeks, the subscriber calls, init)
leads to a state with 0 ≤ fade ≤ 100; and set-fade-volume(pct) leaves the
state unchanged for pct outside 0..100 and sets the fade to pct for pct
inside. -/
theorem C27_fade_range (P : Platform) (ops : List PublicOp) (s : State)
    (hrun : run_public_ops P static_init ops = some s) :
    static_init.volume_fade_percent = 100 ∧
    (0 ≤ s.volume_fade_percent ∧ s.volume_fade_percent ≤ 100) ∧
    (∀ (op : PublicOp) (s' : State), public_step P s op = some s' →
      0 ≤ s'.volume_fade_percent ∧ s'.volume_fade_percent ≤ 100) ∧
    (∀ percent : Int,
      (percent < 0 ∨ 100 < percent → audio_set_fade_volume s percent = s) ∧
      (0 ≤ percent ∧ percent ≤ 100 →
        ((audio_set_fade_volume s percent).volume_fade_percent : Int) = percent)) := by
  have hs := run_public_ops_fade_le P ops static_init s (Nat.le_refl _) hrun
  exact ⟨rfl, ⟨Nat.zero_le _, hs⟩,
    fun op s' h => ⟨Nat.zero_le _, public_step_fade_le P s s' op hs h⟩,
    fun percent => audio_set_fade_volume_spec s percent⟩

/-- Witness for C27: init followed by `public_ops_example` (fade 40, open, a
step of 15, volume 20, a step of 60, a request of 250, register, reset, a step
of 1) ends at fade 99. -/
theorem C27_fade_range_witness :
    ∃ s, run_public_ops example_platform static_init
        (PublicOp.buffer_init :: public_ops_example) = some s ∧
      s.volume_fade_percent = 99 ∧
      (0 ≤ s.volume_fade_percent ∧ s.volume_fade_percent ≤ 100) :=
  ⟨_, rfl, rfl,
    (C27_fade_range example_platform (PublicOp.buffer_init :: public_ops_example) _ rfl).2.1⟩

/-! ## Claim C19: the scale handed to the mix primitive -/

/-- The function `audio_device_open` returns -3 only with the lock acquired,
an open attempted and `SDL_OpenAudio` failing. -/
theorem audio_device_open_refused_iff (e : OpenEnv) (s : State) (samplerate channels : Int) :
    (audio_device_open e s samplerate channels).1 = -3 ↔
      (e.p_audio2 = true ∧
        (s.device_open = 0 ∨ samplerate ≠ s.have_samplerate ∨ channels ≠ s.have_channels)) ∧
      e.sdl_open_ok = false := by
  cases hl : e.p_audio2 <;> cases ho : e.sdl_open_ok <;> cases hv : e.v_audio2 <;>
    cases hp : e.p_audio <;>
    by_cases hd : s.device_open = 0 <;>
    by_cases hr : samplerate = s.have_samplerate <;>
    by_cases hc : channels = s.have_channels <;>
    simp [audio_device_open, hl, ho, hv, hp, hd, hr, hc]

/-- The state after an open that the device refuses, the mutex calls
succeeding: the old session closed, the open request and the error event
recorded, the ring buffer cleared. -/
theorem audio_device_open_refused (e : OpenEnv) (s : State) (samplerate channels : Int)
    (hlock : e.p_audio2 = true) (hfail : e.sdl_open_ok = false) (hv : e.v_audio2 = true)
    (hp : e.p_audio = true)
    (hattempt : s.device_open = 0 ∨ samplerate ≠ s.have_samplerate ∨
      channels ≠ s.have_channels) :
    (audio_device_open e s samplerate channels).2 =
      { (audio_device_close { s with buf_read_counter := 0 }) with
          sdl := (audio_device_close { s with buf_read_counter := 0 }).sdl ++
            [SdlCall.OpenAudio samplerate channels],
          event_queue := (audio_device_close { s with buf_read_counter := 0 }).event_queue ++
            [(GmuEvent.GMU_ERROR, GmuError.GMU_ERROR_CANNOT_OPEN_AUDIO_DEVICE)],
          audio_rb := ringbuffer_clear
            (audio_device_close { s with buf_read_counter := 0 }).audio_rb } := by
  by_cases hd : s.device_open = 0
  · simp [audio_device_open, hlock, hfail, hv, hp, hd, audio_device_close]
  · have hdiff : ¬ samplerate = s.have_samplerate ∨ ¬ channels = s.have_channels :=
      hattempt.resolve_left hd
    simp [audio_device_open, hlock, hfail, hv, hp, hd, hdiff]

/-- C29: when `audio_device_open` returns -3 (the mutex calls around the
buffer clear succeeding), the session is left closed, a previously open
session has been paused and closed before the open request, the ring buffer
is empty and the byte counter is 0, while the done flag and the stored rate
and channels keep their previous values. -/
theorem C29_failed_open_state (e : OpenEnv) (s : State) (samplerate channels : Int)
    (hret : (audio_device_open e s samplerate channels).1 = -3)
    (hv : e.v_audio2 = true) (hp : e.p_audio = true) :
    (audio_device_open e s samplerate channels).2.device_open = 0 ∧
    (s.device_open ≠ 0 →
      (audio_device_open e s samplerate channels).2.paused = 1 ∧
      (audio_device_open e s samplerate channels).2.sdl =
        (audio_set_pause s 1).2.sdl ++
          [SdlCall.CloseAudio, SdlCall.OpenAudio samplerate channels]) ∧
    ringbuffer_get_fill (audio_device_open e s samplerate channels).2.audio_rb = 0 ∧
    (audio_device_open e s samplerate channels).2.buf_read_counter = 0 ∧
    (audio_device_open e s samplerate channels).2.done = s.done ∧
    (audio_device_open e s samplerate channels).2.have_samplerate = s.have_samplerate ∧
    (audio_device_open e s samplerate channels).2.have_channels = s.have_channels := by
  obtain ⟨⟨hlock, hattempt⟩, hfail⟩ :=
    (audio_device_open_refused_iff e s samplerate channels).mp hret
  rw [audio_device_open_refused e s samplerate channels hlock hfail hv hp hattempt]
  have hclosed := audio_device_close_closed { s with buf_read_counter := 0 }
  have hctr := audio_device_close_counter { s with buf_read_counter := 0 }
  refine ⟨hclosed, ?_, rfl, hctr, ?_, ?_, ?_⟩
  · intro hopen
    by_cases hpa : s.paused = 1
    · simp [audio_device_close, audio_set_pause, hopen, hpa]
    · simp [audio_device_close, audio_set_pause, hopen, hpa]
  · simp only [audio_device_close, audio_set_pause]
    split_ifs <;> rfl
  · simp only [audio_device_close, audio_set_pause]
    split_ifs <;> rfl
  · simp only [audio_device_close, audio_set_pause]
    split_ifs <;> rfl

/-- Witness for C29: the playing session at (44100, 2) with 8 bytes queued
and the done flag set; an open at (48000, 2) that the device refuses. -/
theorem C29_failed_open_state_witness :
    (audio_device_open open_refused (audio_set_done true queued_8) 48000 2).1 = -3 ∧
    ((audio_device_open open_refused (audio_set_done true queued_8) 48000 2).2.device_open = 0 ∧
      ((audio_set_done true queued_8).device_open ≠ 0 →
        (audio_device_open open_refused (audio_set_done true queued_8) 48000 2).2.paused = 1 ∧
        (audio_device_open open_refused (audio_set_done true queued_8) 48000 2).2.sdl =
          (audio_set_pause (audio_set_done true queued_8) 1).2.sdl ++
            [SdlCall.CloseAudio, SdlCall.OpenAudio 48000 2]) ∧
      ringbuffer_get_fill
        (audio_device_open open_refused (audio_set_done true queued_8) 48000 2).2.audio_rb = 0 ∧
      (audio_device_open open_refused (audio_set_done true queued_8) 48000 2).2.buf_read_counter
        = 0 ∧
      (audio_device_open open_refused (audio_set_done true queued_8) 48000 2).2.done =
        (audio_set_done true queued_8).done ∧
      (audio_device_open open_refused (audio_set_done true queued_8) 48000 2).2.have_samplerate =
        (audio_set_done true queued_8).have_samplerate ∧
      (audio_device_open open_refused (audio_set_done true queued_8) 48000 2).2.have_channels =
        (audio_set_done true queued_8).have_channels) ∧
    ((audio_set_done true queued_8).done, (audio_set_done true queued_8).have_samplerate,
      (audio_set_done true queued_8).buf_read_counter,
      ringbuffer_get_fill (audio_set_done true queued_8).audio_rb) = (1, 44100, 8, 8) :=
  ⟨rfl, C29_failed_open_state open_refused (audio_set_done true queued_8) 48000 2 rfl rfl rfl,
    rfl⟩

/-! ## Claim C30: the subscriber count -/

/-- A register call below `INT_MAX` adds one to the count. -/
theorem register_count (s : State) (h0 : 0 ≤ s.spectrum_reg)
    (h1 : s.spectrum_reg + 1 < 2 ^ 31) :
    (audio_spectrum_register_for_access s).spectrum_reg = s.spectrum_reg + 1 := by
  simp only [audio_spectrum_register_for_access]
  exact wrapS_of_nonneg 32 _ (by norm_num) (by omega) (by simpa using h1)

/-- Along a sequence of subscriber calls the count stays between 0 and the
start count plus the number of calls, as long as that sum is below 2^31. -/
theorem run_spectrum_ops_range (ops : List SpectrumOp) :
    ∀ s : State, 0 ≤ s.spectrum_reg → s.spectrum_reg + ops.length < 2 ^ 31 →
      0 ≤ (run_spectrum_ops s ops).spectrum_reg ∧
      (run_spectrum_ops s ops).spectrum_reg ≤ s.spectrum_reg + ops.length := by
  induction ops with
  | nil =>
    intro s h0 _
    simp only [run_spectrum_ops, List.length_nil]
    omega
  | cons op ops ih =>
    intro s h0 h1
    simp only [List.length_cons, Nat.cast_add, Nat.cast_one] at h1 ⊢
    simp only [run_spectrum_ops]
    cases op with
    | register =>
      have hr := register_count s h0 (by omega)
      obtain ⟨i1, i2⟩ := ih (audio_spectrum_register_for_access s)
        (by rw [hr]; omega) (by rw [hr]; omega)
      rw [hr] at i2
      simp only [spectrum_step]
      exact ⟨i1, by omega⟩
    | unregister =>
      by_cases hpos : 0 < s.spectrum_reg
      · have hu : (spectrum_step s SpectrumOp.unregister).spectrum_reg = s.spectrum_reg - 1 := by
          simp [spectrum_step, audio_spectrum_unregister, hpos]
        obtain ⟨i1, i2⟩ := ih (spectrum_step s SpectrumOp.unregister)
          (by rw [hu]; omega) (by rw [hu]; omega)
        rw [hu] at i2
        exact ⟨i1, by omega⟩
      · have hu : spectrum_step s SpectrumOp.unregister = s := by
          simp [spectrum_step, audio_spectrum_unregister, hpos]
        obtain ⟨i1, i2⟩ := ih s h0 (by omega)
        rw [hu]
        exact ⟨i1, by omega⟩

/-- C30: starting from count 0, after every sequence of register and
unregister calls (fewer than 2^31, so that the `int` count cannot overflow)
the subscriber count is ≥ 0; unregister at count 0 changes nothing; and on a
count c with 0 ≤ c below `INT_MAX`, register followed by unregister restores
the state. -/
theorem C30_subscriber_count (ops : List SpectrumOp) (s : State)
    (hzero : s.spectrum_reg = 0) (hlen : ops.length < 2 ^ 31) :
    0 ≤ (run_spectrum_ops s ops).spectrum_reg ∧
    audio_spectrum_unregister s = s ∧
    (∀ t : State, 0 ≤ t.spectrum_reg → t.spectrum_reg + 1 < 2 ^ 31 →
      audio_spectrum_unregister (audio_spectrum_register_for_access t) = t) := by
  refine ⟨(run_spectrum_ops_range ops s (by omega) (by rw [hzero]; exact_mod_cast
      (by simpa using hlen : (0 : Int) + (ops.length : Int) < 2 ^ 31))).1, ?_, ?_⟩
  · simp [audio_spectrum_unregister, hzero]
  · intro t h0 h1
    have hr := register_count t h0 h1
    have hpos : 0 < (audio_spectrum_register_for_access t).spectrum_reg := by rw [hr]; omega
    rw [audio_spectrum_unregister, if_pos hpos, hr]
    cases t
    simp [audio_spectrum_register_for_access]

/-- Witness for C30: from the freshly initialised state, unregister at 0, two
registers, three unregisters and one register leave the count at 1. -/
theorem C30_subscriber_count_witness :
    (run_spectrum_ops fresh spectrum_ops_example).spectrum_reg = 1 ∧
    (0 ≤ (run_spectrum_ops fresh spectrum_ops_example).spectrum_reg ∧
      audio_spectrum_unregister fresh = fresh ∧
      (∀ t : State, 0 ≤ t.spectrum_reg → t.spectrum_reg + 1 < 2 ^ 31 →
        audio_spectrum_unregister (audio_spectrum_register_for_access t) = t)) :=
  ⟨rfl, C30_subscriber_count spectrum_ops_example fresh rfl (by decide)⟩

/-! ## Claim C15: pause and the published amplitudes -/

end Gmu
